import Mathlib

/-!
Verification development for the SWS web server (Rust sources).

Each Rust function referenced by the specification claims is shallowly
embedded as an executable Lean definition.  Machine integers are modelled
as `Nat` (or `Int` where the Rust type is signed) with explicit reductions
modulo 2^w at every point where the Rust code can wrap; byte strings are
`List Nat` with every element < 256; fallible operations return `Option`
(where `none` models a Rust panic or an error return, as noted at each
definition).
-/

set_option maxRecDepth 100000

namespace SWS

/-! ## HTTP/2 frame layer (`selenia_http/src/http2.rs`) -/

/-- Frame types, `enum FrameType` (http2.rs). -/
inductive FrameType where
  | data | headers | priority | rstStream | settings
  | pushPromise | ping | goAway | windowUpdate | continuation
  deriving DecidableEq, Repr

/-- The `repr(u8)` discriminant of a frame type. -/
def FrameType.toByte : FrameType → Nat
  | .data => 0x0
  | .headers => 0x1
  | .priority => 0x2
  | .rstStream => 0x3
  | .settings => 0x4
  | .pushPromise => 0x5
  | .ping => 0x6
  | .goAway => 0x7
  | .windowUpdate => 0x8
  | .continuation => 0x9

/-- `impl TryFrom<u8> for FrameType` (http2.rs). -/
def FrameType.fromByte : Nat → Option FrameType
  | 0x0 => some .data
  | 0x1 => some .headers
  | 0x2 => some .priority
  | 0x3 => some .rstStream
  | 0x4 => some .settings
  | 0x5 => some .pushPromise
  | 0x6 => some .ping
  | 0x7 => some .goAway
  | 0x8 => some .windowUpdate
  | 0x9 => some .continuation
  | _ => none

/-- `struct FrameHeader` (http2.rs): 24-bit length, type, 8-bit flags,
31-bit stream id.  Fields are `Nat`s; the Rust types are u32/u8/u32. -/
structure FrameHeader where
  length : Nat
  type_ : FrameType
  flags : Nat
  streamId : Nat
  deriving DecidableEq, Repr

/-- `FrameHeader::serialize` (http2.rs): 3-byte big-endian length
(`length.to_be_bytes()[1..]`), type byte, flags byte, then the stream id
masked with `0x7FFF_FFFF` as 4 big-endian bytes.  `x % 2^32` models the
`u32` field content and `&&& 0x7FFFFFFF` is written `% 2^31`. -/
def FrameHeader.serialize (fh : FrameHeader) : List Nat :=
  let len := fh.length % 2 ^ 32
  let sid := fh.streamId % 2 ^ 32 % 2 ^ 31
  [len / 2 ^ 16 % 256, len / 2 ^ 8 % 256, len % 256,
   fh.type_.toByte, fh.flags % 256,
   sid / 2 ^ 24 % 256, sid / 2 ^ 16 % 256, sid / 2 ^ 8 % 256, sid % 256]

/-- `parse_frame` (http2.rs): returns `(header, 9 + length)` when the
buffer holds a complete frame, `none` when more data is needed or the
type byte is unknown. -/
def parseFrame (buf : List Nat) : Option (FrameHeader × Nat) :=
  if buf.length < 9 then none
  else
    let len := (buf.getD 0 0) * 2 ^ 16 + (buf.getD 1 0) * 2 ^ 8 + buf.getD 2 0
    if buf.length < 9 + len then none
    else
      match FrameType.fromByte (buf.getD 3 0) with
      | none => none
      | some t =>
        let sid := ((buf.getD 5 0) * 2 ^ 24 + (buf.getD 6 0) * 2 ^ 16 +
                    (buf.getD 7 0) * 2 ^ 8 + buf.getD 8 0) % 2 ^ 31
        some (⟨len, t, buf.getD 4 0, sid⟩, 9 + len)

/-! ## HTTP/2 stream state machine (`Connection::on_frame`, http2.rs) -/

/-- `enum StreamState` (http2.rs). -/
inductive StreamState where
  | idle | reservedLocal | reservedRemote | open_
  | halfClosedLocal | halfClosedRemote | closed
  deriving DecidableEq, Repr

/-- `Connection::on_frame` (http2.rs lines 44-69), restricted to the state
of the one stream the frame addresses (the Rust code looks the stream up
in a map, defaulting to `Idle`, and mutates only its `state` field).
`flags` is the frame's flags byte; bit 0 is END_STREAM.  The function is
total and has no error/GOAWAY channel: unmatched combinations leave the
state unchanged. -/
def onFrame (s : StreamState) (t : FrameType) (flags : Nat) : StreamState :=
  match s with
  | .idle =>
    match t with
    | .headers => .open_
    | .priority => .open_
    | .pushPromise => .reservedRemote
    | _ => s
  | .open_ =>
    match t with
    | .data => if flags % 2 == 1 then .halfClosedRemote else s
    | .rstStream => .closed
    | _ => s
  | .halfClosedRemote =>
    match t with
    | .rstStream => .closed
    | _ => s
  | .halfClosedLocal =>
    match t with
    | .data => s
    | .rstStream => .closed
    | _ => s
  | _ => s

/-! ## HTTP/2 priority tree, flow control and scheduler (http2.rs) -/

/-- Rust `frame_size as i32`: reinterpret the low 32 bits as a signed value. -/
def toI32 (n : Nat) : Int :=
  if n % 2 ^ 32 < 2 ^ 31 then ((n % 2 ^ 32 : Nat) : Int)
  else ((n % 2 ^ 32 : Nat) : Int) - 2 ^ 32

/-- `struct StreamNode` (http2.rs). `weight` is stored already clamped to
at least 1 by `StreamNode::new`. -/
structure StreamNode where
  id : Nat
  weight : Nat
  parent : Nat
  children : List Nat
  queuedBytes : Nat
  deriving DecidableEq, Repr

/-- Association-list update: replace the first binding of `k`, else append. -/
def setAssoc {α : Type} : List (Nat × α) → Nat → α → List (Nat × α)
  | [], k, v => [(k, v)]
  | (k', v') :: rest, k, v =>
    if k' = k then (k, v) :: rest else (k', v') :: setAssoc rest k v

/-- `struct PriorityTree`: the `HashMap<u32, StreamNode>` is modelled as an
association list (all accesses are keyed lookups, so map order is
irrelevant; the `children` vectors carry the Rust insertion order). -/
structure PriorityTree where
  nodes : List (Nat × StreamNode)
  deriving Repr

/-- `PriorityTree::new`: a virtual root node id 0 with weight 16. -/
def PriorityTree.new : PriorityTree :=
  ⟨[(0, ⟨0, 16, 0, [], 0⟩)]⟩

/-- `PriorityTree::ensure_node`: orphan ids attach to the root. -/
def PriorityTree.ensureNode (pt : PriorityTree) (id : Nat) : PriorityTree :=
  match pt.nodes.lookup id with
  | some _ => pt
  | none =>
    let withNew := setAssoc pt.nodes id ⟨id, 16, 0, [], 0⟩
    match withNew.lookup 0 with
    | some root => ⟨setAssoc withNew 0 { root with children := root.children ++ [id] }⟩
    | none => ⟨withNew⟩

/-- `PriorityTree::enqueue_bytes`. -/
def PriorityTree.enqueueBytes (pt : PriorityTree) (id : Nat) (bytes : Nat) : PriorityTree :=
  let pt := pt.ensureNode id
  match pt.nodes.lookup id with
  | some node => ⟨setAssoc pt.nodes id { node with queuedBytes := node.queuedBytes + bytes }⟩
  | none => pt

/-- Sum of the weights of `cs` (`self.nodes[c].weight`; a dangling child id
would panic in Rust and contributes 0 here — unreachable in the states
this development evaluates). -/
def sumWeights (nodes : List (Nat × StreamNode)) (cs : List Nat) : Nat :=
  cs.foldl (fun acc c => acc + ((nodes.lookup c).map StreamNode.weight).getD 0) 0

/-- The inner `for c in &node.children` loop of `pop_next_stream`: returns
the first child with queued bytes and a share above the threshold, and the
`(id, share)` pairs pushed onto the BFS queue before returning (all of them
when no child is picked).  The Rust `f32` share `ratio * weight/total_w`
is modelled as an exact unreduced fraction `(num, den)` with `den > 0`,
and the comparison `share > 0.0001` as `num * 10000 > den`; every share
arising in the evaluations of this development is a dyadic rational that
`f32` represents exactly, where the two semantics agree. -/
def popScan (nodes : List (Nat × StreamNode)) (num den totalW : Nat) :
    List Nat → Option Nat × List (Nat × Nat × Nat)
  | [] => (none, [])
  | c :: rest =>
    match nodes.lookup c with
    | none => (none, [])
    | some child =>
      let shareNum := num * child.weight
      let shareDen := den * totalW
      if child.queuedBytes > 0 ∧ shareNum * 10000 > shareDen then (some c, [])
      else
        let (r, adds) := popScan nodes num den totalW rest
        (r, (c, shareNum, shareDen) :: adds)

/-- The BFS loop of `PriorityTree::pop_next_stream`, with explicit fuel
(the Rust `while let` loop is unbounded; on the rooted trees this
development evaluates the queue shrinks to empty). -/
def popNextAux (nodes : List (Nat × StreamNode)) :
    Nat → List (Nat × Nat × Nat) → Option Nat
  | 0, _ => none
  | _, [] => none
  | fuel + 1, (id, num, den) :: q =>
    match nodes.lookup id with
    | none => none
    | some node =>
      let totalW := sumWeights nodes node.children
      if totalW = 0 then popNextAux nodes fuel q
      else
        match popScan nodes num den totalW node.children with
        | (some c, _) => some c
        | (none, adds) => popNextAux nodes fuel (q ++ adds)

/-- `PriorityTree::pop_next_stream` started from the root with ratio 1. -/
def PriorityTree.popNextStream (pt : PriorityTree) : Option Nat :=
  popNextAux pt.nodes (pt.nodes.length * pt.nodes.length + pt.nodes.length + 1)
    [(0, 1, 1)]

/-- `struct FlowControl` (http2.rs): i32 connection window plus per-stream
i32 windows, association list for the `HashMap`. -/
structure FlowControl where
  connWindow : Int
  streamWindows : List (Nat × Int)
  deriving DecidableEq, Repr

/-- `DEFAULT_CONN_WINDOW` = `DEFAULT_STREAM_WINDOW` = 65535. -/
def defaultWindow : Int := 65535

/-- `FlowControl::new`. -/
def FlowControl.new : FlowControl := ⟨defaultWindow, []⟩

/-- `FlowControl::window_for`: `entry(id).or_insert(default)` — returns the
window and the map with the default inserted when absent. -/
def FlowControl.windowFor (fc : FlowControl) (id : Nat) : Int × FlowControl :=
  match fc.streamWindows.lookup id with
  | some w => (w, fc)
  | none => (defaultWindow, { fc with streamWindows := setAssoc fc.streamWindows id defaultWindow })

/-- Observer: the stream window `window_for` would report (lookup with the
65535 default), without the insertion side effect. -/
def FlowControl.winOf (fc : FlowControl) (id : Nat) : Int :=
  (fc.streamWindows.lookup id).getD defaultWindow

/-- `FlowControl::try_reserve`: refuse if either window is below `len`,
else debit both. -/
def FlowControl.tryReserve (fc : FlowControl) (id : Nat) (len : Int) : Bool × FlowControl :=
  let (sw, fc1) := fc.windowFor id
  if fc1.connWindow < len ∨ sw < len then (false, fc1)
  else (true, { connWindow := fc1.connWindow - len,
                streamWindows := setAssoc fc1.streamWindows id (sw - len) })

/-- `FlowControl::update_window`: stream id 0 updates the connection
window; increments saturate at `i32::MAX` (the Rust `+` itself can
overflow an i32 only for increments this development never uses). -/
def FlowControl.updateWindow (fc : FlowControl) (id : Nat) (inc : Int) : FlowControl :=
  if id = 0 then { fc with connWindow := min (fc.connWindow + inc) (2 ^ 31 - 1) }
  else
    let w := (fc.streamWindows.lookup id).getD defaultWindow
    { fc with streamWindows := setAssoc fc.streamWindows id (min (w + inc) (2 ^ 31 - 1)) }

/-- `struct Scheduler` (http2.rs): priority tree + flow control. -/
structure Scheduler where
  ptree : PriorityTree
  fc : FlowControl

/-- `Scheduler::new`. -/
def Scheduler.new : Scheduler := ⟨PriorityTree.new, FlowControl.new⟩

/-- `Scheduler::queue_data`. -/
def Scheduler.queueData (s : Scheduler) (id : Nat) (bytes : Nat) : Scheduler :=
  { s with ptree := s.ptree.enqueueBytes id bytes }

/-- `Scheduler::next_stream`: pop a candidate, reserve `frame_size` on both
windows, debit queued bytes (`saturating_sub` is `Nat` subtraction). -/
def Scheduler.nextStream (s : Scheduler) (frameSize : Nat) : Option Nat × Scheduler :=
  match s.ptree.popNextStream with
  | none => (none, s)
  | some id =>
    let (ok, fc') := s.fc.tryReserve id (toI32 frameSize)
    if ok then
      let pt' :=
        match s.ptree.nodes.lookup id with
        | some node =>
          PriorityTree.mk (setAssoc s.ptree.nodes id
            { node with queuedBytes := node.queuedBytes - frameSize })
        | none => s.ptree
      (some id, ⟨pt', fc'⟩)
    else (none, { s with fc := fc' })

/-- `Scheduler::on_window_update`. -/
def Scheduler.onWindowUpdate (s : Scheduler) (id : Nat) (inc : Int) : Scheduler :=
  { s with fc := s.fc.updateWindow id inc }

/-! Call sequences between two WINDOW_UPDATE events: only `queue_data` and
`next_stream` occur. -/

/-- One call in the interval between two WINDOW_UPDATE events. -/
inductive SchedOp where
  | queueData (id bytes : Nat)
  | nextStream (frameSize : Nat)
  deriving DecidableEq, Repr

/-- Execute one call, also reporting the admission it makes, if any, as a
`(stream id, frame_size)` pair. -/
def schedStep (s : Scheduler) : SchedOp → Scheduler × List (Nat × Nat)
  | .queueData id bytes => (s.queueData id bytes, [])
  | .nextStream fs =>
    match s.nextStream fs with
    | (some id, s') => (s', [(id, fs)])
    | (none, s') => (s', [])

/-- Final state after a call sequence. -/
def runSched (s : Scheduler) : List SchedOp → Scheduler
  | [] => s
  | op :: rest => runSched (schedStep s op).1 rest

/-- All admissions a call sequence makes, in order. -/
def schedAdmits (s : Scheduler) : List SchedOp → List (Nat × Nat)
  | [] => []
  | op :: rest => (schedStep s op).2 ++ schedAdmits (schedStep s op).1 rest

/-- Total bytes admitted. -/
def admitTotal (l : List (Nat × Nat)) : Nat := (l.map Prod.snd).sum

/-- Bytes admitted on stream `i`. -/
def admitOn (i : Nat) (l : List (Nat × Nat)) : Nat :=
  ((l.filter (fun p => p.1 = i)).map Prod.snd).sum

/-- The transition table exactly as the claim states it: the five listed
transitions succeed, and every other state/frame combination is a
connection error (`none`), meaning GOAWAY is emitted and the connection
closed. -/
def claimedTransition (s : StreamState) (t : FrameType) (flags : Nat) :
    Option StreamState :=
  match s, t with
  | .idle, .headers => some .open_
  | .idle, .priority => some .open_
  | .idle, .pushPromise => some .reservedRemote
  | .open_, .data => if flags % 2 == 1 then some .halfClosedRemote else none
  | .open_, .rstStream => some .closed
  | .halfClosedRemote, .rstStream => some .closed
  | _, _ => none

/-- The transition table the code actually implements, stated in the
amended claim's words: the five listed transitions, plus
HalfClosedLocal + RST_STREAM going to Closed, and every remaining
combination leaving the stream state unchanged (no GOAWAY, no close). -/
def amendedTransition (s : StreamState) (t : FrameType) (flags : Nat) :
    StreamState :=
  match s, t with
  | .idle, .headers => .open_
  | .idle, .priority => .open_
  | .idle, .pushPromise => .reservedRemote
  | .open_, .data => if flags % 2 == 1 then .halfClosedRemote else .open_
  | .open_, .rstStream => .closed
  | .halfClosedRemote, .rstStream => .closed
  | .halfClosedLocal, .rstStream => .closed
  | s, _ => s

/-! ## HTTP/1 streaming parser (`selenia_http/src/parser.rs`)

Byte strings are `List Nat` (each element < 256); `&str` slices produced
by `from_utf8_unchecked` are kept as byte lists (all inputs considered
here are ASCII, where Rust's per-`char` operations coincide with
per-byte ones). -/

/-- ASCII bytes of a Lean string literal. -/
def strBytes (s : String) : List Nat := s.toList.map Char.toNat

/-- `memchr(byte, hay)` (the private helper module in parser.rs). -/
def memchr (b : Nat) : List Nat → Option Nat
  | [] => none
  | x :: rest => if x = b then some 0 else (memchr b rest).map (· + 1)

/-- `find_double_crlf`: position of the first 4-byte window equal to
`\r\n\r\n` — or to `\n\n\n\n` (the Rust code compares the window against
four LF bytes, so a bare LFLF blank line never matches). -/
def findDoubleCrlf : List Nat → Option Nat
  | a :: b :: c :: d :: rest =>
    if (a = 13 ∧ b = 10 ∧ c = 13 ∧ d = 10) ∨ (a = 10 ∧ b = 10 ∧ c = 10 ∧ d = 10)
    then some 0
    else (findDoubleCrlf (b :: c :: d :: rest)).map (· + 1)
  | _ => none

/-- `trim_cr`: drop one trailing CR. -/
def trimCr (l : List Nat) : List Nat :=
  if l.getLast? = some 13 then l.dropLast else l

/-- `u8` considered whitespace by `char::is_ascii_whitespace`. -/
def isAsciiWs (c : Nat) : Bool := c = 32 ∨ c = 9 ∨ c = 10 ∨ c = 12 ∨ c = 13

/-- `u8` in the ASCII range considered whitespace by `char::is_whitespace`
(`str::trim`), which additionally includes vertical tab. -/
def isUniWs (c : Nat) : Bool := c = 9 ∨ c = 10 ∨ c = 11 ∨ c = 12 ∨ c = 13 ∨ c = 32

/-- `split_ws`: split on ASCII whitespace and drop empty pieces. -/
def splitWs (l : List Nat) : List (List Nat) :=
  (l.splitOnP isAsciiWs).filter (fun p => ¬ p.isEmpty)

/-- `str::trim`. -/
def listTrim (l : List Nat) : List Nat :=
  ((l.dropWhile isUniWs).reverse.dropWhile isUniWs).reverse

/-- `u8::to_ascii_lowercase`. -/
def lowerB (c : Nat) : Nat := if 65 ≤ c ∧ c ≤ 90 then c + 32 else c

/-- `eq_ignore_ascii_case`. -/
def eqIgnoreCase (a b : List Nat) : Bool := a.map lowerB == b.map lowerB

/-- Decimal digit value. -/
def digitVal (c : Nat) : Option Nat :=
  if 48 ≤ c ∧ c ≤ 57 then some (c - 48) else none

/-- `val.parse::<usize>()`: optional leading `+`, then at least one
decimal digit (overflow, impossible at the sizes evaluated here, is not
modelled). -/
def parseUsize (l : List Nat) : Option Nat :=
  let l' := match l with | 43 :: rest => rest | _ => l
  if l'.isEmpty then none
  else l'.foldl (fun acc c =>
    match acc, digitVal c with
    | some a, some d => some (a * 10 + d)
    | _, _ => none) (some 0)

/-- Hexadecimal digit value. -/
def hexVal (c : Nat) : Option Nat :=
  if 48 ≤ c ∧ c ≤ 57 then some (c - 48)
  else if 97 ≤ c ∧ c ≤ 102 then some (c - 87)
  else if 65 ≤ c ∧ c ≤ 70 then some (c - 55)
  else none

/-- `usize::from_str_radix(s, 16)`: optional leading `+`, then at least
one hex digit. -/
def parseHexUsize (l : List Nat) : Option Nat :=
  let l' := match l with | 43 :: rest => rest | _ => l
  if l'.isEmpty then none
  else l'.foldl (fun acc c =>
    match acc, hexVal c with
    | some a, some d => some (a * 16 + d)
    | _, _ => none) (some 0)

/-- `input[a..b]`. -/
def sliceL (l : List Nat) (a b : Nat) : List Nat := (l.take b).drop a

/-- `struct Request` (parser.rs), a borrowed view into the buffer. -/
structure RequestView where
  method : List Nat
  path : List Nat
  version : List Nat
  headers : List (List Nat × List Nat)
  body : List Nat
  deriving DecidableEq, Repr

/-- `enum ParseError` (parser.rs). -/
inductive ParseError where
  | incomplete | invalid
  deriving DecidableEq, Repr

/-- `enum ParseState` (parser.rs). -/
inductive HState where
  | requestLine | headers | done
  deriving DecidableEq, Repr

/-- `struct Parser` (parser.rs). -/
structure Http1Parser where
  state : HState
  index : Nat
  deriving DecidableEq, Repr

/-- `Parser::new`. -/
def Http1Parser.new : Http1Parser := ⟨.requestLine, 0⟩

/-- Header-line splitting inside `collect_headers`: the block is split on
LF, empty lines (after dropping a trailing CR) are skipped, a line
without a colon is `MalformedHeader`, and name/value are trimmed. -/
def parseHeaderLines : List (List Nat) → Option (List (List Nat × List Nat))
  | [] => some []
  | line :: rest =>
    let l := trimCr line
    if l.isEmpty then parseHeaderLines rest
    else
      match memchr 58 l with
      | none => none
      | some col =>
        match parseHeaderLines rest with
        | none => none
        | some hs => some ((listTrim (l.take col), listTrim (l.drop (col + 1))) :: hs)

/-- The body-length scan of `collect_headers`: later `Content-Length`
headers overwrite earlier ones, and `Transfer-Encoding: chunked`
(case-insensitive, after trimming the value) sets the chunked flag. -/
def bodyLengthOf (headers : List (List Nat × List Nat)) : Option Nat × Bool :=
  headers.foldl (fun acc nv =>
    if eqIgnoreCase nv.1 (strBytes "content-length") then
      match parseUsize nv.2 with
      | some len => (some len, acc.2)
      | none => acc
    else if eqIgnoreCase nv.1 (strBytes "transfer-encoding") &&
            eqIgnoreCase (listTrim nv.2) (strBytes "chunked") then (acc.1, true)
    else acc) (none, false)

/-- The loop of `parse_chunked_body`, with fuel (each iteration strictly
advances `pos`, so `input.length + 1` iterations always suffice).
Returns `(body_start, body_end, consumed)` indices into `input`. -/
def parseChunkedAux (input : List Nat) : Nat → Nat → Nat → Option (Nat × Nat × Nat)
  | 0, _, _ => none
  | fuel + 1, pos, bodyStart =>
    match memchr 10 (input.drop pos) with
    | none => none
    | some i =>
      let lineEnd := pos + i
      let line := trimCr (sliceL input pos lineEnd)
      match parseHexUsize (listTrim line) with
      | none => none
      | some size =>
        let pos' := lineEnd + 1
        if size = 0 then
          if input.length < pos' + 2 then none
          else some (bodyStart, pos' - (line.length + 1), pos' + 2)
        else
          if input.length < pos' + size + 2 then none
          else parseChunkedAux input fuel (pos' + size + 2)
            (if bodyStart = 0 then lineEnd + 1 else bodyStart)

/-- `parse_chunked_body`: body slice of `input` plus total bytes consumed
from `input`. -/
def parseChunkedBody (input : List Nat) : Option (List Nat × Nat) :=
  match parseChunkedAux input (input.length + 1) 0 0 with
  | none => none
  | some (bs, be, consumed) => some (sliceL input bs be, consumed)

/-- `Parser::collect_headers` (parser.rs): called with `self.state` already
set to `Headers` and `self.index` at the byte after the request line.
Returns the Rust function's result together with the parser the Rust
method leaves behind (fields are mutated only on success). -/
def collectHeaders (p : Http1Parser) (buf : List Nat) (req : RequestView) :
    Except ParseError (Option (RequestView × Nat)) × Http1Parser :=
  let start := p.index
  let slice := buf.drop start
  match findDoubleCrlf slice with
  | none => (.ok none, p)
  | some endPos =>
    match parseHeaderLines ((slice.take endPos).splitOn 10) with
    | none => (.error .invalid, p)
    | some hs =>
      let req := { req with headers := hs }
      let consumed := start + endPos + 4
      match bodyLengthOf hs with
      | (some len, _) =>
        if buf.length < consumed + len then (.ok none, p)
        else
          let req := { req with body := sliceL buf consumed (consumed + len) }
          (.ok (some (req, consumed + len)), ⟨.done, consumed + len⟩)
      | (none, true) =>
        match parseChunkedBody (buf.drop consumed) with
        | some (bodySlice, extra) =>
          let req := { req with body := bodySlice }
          (.ok (some (req, consumed + extra)), ⟨.done, consumed + extra⟩)
        | none => (.ok none, p)
      | (none, false) =>
        (.ok (some (req, consumed)), ⟨.done, consumed⟩)

/-- `Parser::advance` (parser.rs): parse `buf[self.index..]`, returning
the completed request and consumed count, `none` for "need more data", or
`MalformedHeader`, together with the updated parser. -/
def Http1Parser.advance (p : Http1Parser) (buf : List Nat) :
    Except ParseError (Option (RequestView × Nat)) × Http1Parser :=
  match p.state with
  | .requestLine =>
    let start := p.index
    let slice := buf.drop start
    match memchr 10 slice with
    | none => (.ok none, p)
    | some pos =>
      let lineStr := trimCr (slice.take pos)
      match splitWs lineStr with
      | method :: path :: version :: _ =>
        let consumed := start + pos + 1
        collectHeaders ⟨.headers, consumed⟩ buf
          ⟨method, path, version, [], []⟩
      | _ => (.error .invalid, p)
  | .headers => (.ok none, p)
  | .done => (.ok none, p)

/-! ## SHA-256 (`selenia_core/src/crypto/sha256.rs`)

32-bit words are `Nat`s reduced `% 2 ^ 32` wherever the Rust `u32`
arithmetic wraps. -/

/-- `H0` (values of the Rust hex constants, written in decimal). -/
def shaH0 : List Nat :=
  [1779033703, 3144134277, 1013904242, 2773480762, 1359893119, 2600822924,
   528734635, 1541459225]

/-- `K` (values of the Rust hex constants, written in decimal). -/
def shaK : List Nat :=
  [1116352408, 1899447441, 3049323471, 3921009573, 961987163, 1508970993,
   2453635748, 2870763221, 3624381080, 310598401, 607225278, 1426881987,
   1925078388, 2162078206, 2614888103, 3248222580, 3835390401, 4022224774,
   264347078, 604807628, 770255983, 1249150122, 1555081692, 1996064986,
   2554220882, 2821834349, 2952996808, 3210313671, 3336571891, 3584528711,
   113926993, 338241895, 666307205, 773529912, 1294757372, 1396182291,
   1695183700, 1986661051, 2177026350, 2456956037, 2730485921, 2820302411,
   3259730800, 3345764771, 3516065817, 3600352804, 4094571909, 275423344,
   430227734, 506948616, 659060556, 883997877, 958139571, 1322822218,
   1537002063, 1747873779, 1955562222, 2024104815, 2227730452, 2361852424,
   2428436474, 2756734187, 3204031479, 3329325298]

/-- `rotr` on u32. -/
def rotr32 (x n : Nat) : Nat := (x / 2 ^ n + x % 2 ^ n * 2 ^ (32 - n)) % 2 ^ 32

/-- `!x` on u32. -/
def not32 (x : Nat) : Nat := 2 ^ 32 - 1 - x % 2 ^ 32

def shaCh (x y z : Nat) : Nat := (x &&& y) ^^^ (not32 x &&& z)

def shaMaj (x y z : Nat) : Nat := (x &&& y) ^^^ (x &&& z) ^^^ (y &&& z)

def bsig0 (x : Nat) : Nat := rotr32 x 2 ^^^ rotr32 x 13 ^^^ rotr32 x 22

def bsig1 (x : Nat) : Nat := rotr32 x 6 ^^^ rotr32 x 11 ^^^ rotr32 x 25

def ssig0 (x : Nat) : Nat := rotr32 x 7 ^^^ rotr32 x 18 ^^^ x / 2 ^ 3

def ssig1 (x : Nat) : Nat := rotr32 x 17 ^^^ rotr32 x 19 ^^^ x / 2 ^ 10

/-- `u32::from_be_bytes` over 4 bytes of the block. -/
def word32At (block : List Nat) (t : Nat) : Nat :=
  block.getD (t * 4) 0 * 2 ^ 24 + block.getD (t * 4 + 1) 0 * 2 ^ 16 +
  block.getD (t * 4 + 2) 0 * 2 ^ 8 + block.getD (t * 4 + 3) 0

/-- The message schedule `w[0..64]`. -/
def shaSchedule (block : List Nat) : List Nat :=
  let w16 := (List.range 16).map (word32At block)
  (List.range 48).foldl (fun w _ =>
    let t := w.length
    w ++ [(ssig1 (w.getD (t - 2) 0) + w.getD (t - 7) 0 +
           ssig0 (w.getD (t - 15) 0) + w.getD (t - 16) 0) % 2 ^ 32]) w16

/-- `process_block`. -/
def processBlock (h : List Nat) (block : List Nat) : List Nat :=
  let w := shaSchedule block
  let st := (List.range 64).foldl (fun st t =>
    match st with
    | (a, b, c, d, e, f, g, hh) =>
      let t1 := (hh + bsig1 e + shaCh e f g + shaK.getD t 0 + w.getD t 0) % 2 ^ 32
      let t2 := (bsig0 a + shaMaj a b c) % 2 ^ 32
      (((t1 + t2) % 2 ^ 32), a, b, c, ((d + t1) % 2 ^ 32), e, f, g))
    (h.getD 0 0, h.getD 1 0, h.getD 2 0, h.getD 3 0,
     h.getD 4 0, h.getD 5 0, h.getD 6 0, h.getD 7 0)
  match st with
  | (a, b, c, d, e, f, g, hh) =>
    [(h.getD 0 0 + a) % 2 ^ 32, (h.getD 1 0 + b) % 2 ^ 32,
     (h.getD 2 0 + c) % 2 ^ 32, (h.getD 3 0 + d) % 2 ^ 32,
     (h.getD 4 0 + e) % 2 ^ 32, (h.getD 5 0 + f) % 2 ^ 32,
     (h.getD 6 0 + g) % 2 ^ 32, (h.getD 7 0 + hh) % 2 ^ 32]

/-- 8 big-endian bytes of a u64. -/
def be64 (n : Nat) : List Nat :=
  [n / 2 ^ 56 % 256, n / 2 ^ 48 % 256, n / 2 ^ 40 % 256, n / 2 ^ 32 % 256,
   n / 2 ^ 24 % 256, n / 2 ^ 16 % 256, n / 2 ^ 8 % 256, n % 256]

/-- The block loop of `sha256_digest` (fueled: each full block consumes
64 bytes of the remaining data). -/
def sha256Aux (bitLen : Nat) : Nat → List Nat → List Nat → List Nat
  | 0, h, _ => h
  | fuel + 1, h, rest =>
    if rest.length ≥ 64 then
      sha256Aux bitLen fuel (processBlock h (rest.take 64)) (rest.drop 64)
    else
      let rem := rest.length
      if rem ≥ 56 then
        let blk := rest ++ 0x80 :: List.replicate (63 - rem) 0
        processBlock (processBlock h blk) (List.replicate 56 0 ++ be64 bitLen)
      else
        processBlock h (rest ++ 0x80 :: List.replicate (55 - rem) 0 ++ be64 bitLen)

/-- `sha256_digest`: 32 output bytes. -/
def sha256Digest (data : List Nat) : List Nat :=
  let h := sha256Aux (data.length * 8) (data.length + 1) shaH0 data
  h.foldr (fun v acc =>
    (v / 2 ^ 24 % 256) :: (v / 2 ^ 16 % 256) :: (v / 2 ^ 8 % 256) :: (v % 256) :: acc) []

/-! ## ETag formatting (`handle_request`, lib.rs) -/

/-- Lowercase hex digit. -/
def hexDigitChar (n : Nat) : Char :=
  if n < 10 then Char.ofNat (48 + n) else Char.ofNat (87 + n)

/-- Rust `format!("{:x}", b)` for a `u8`: minimal width, no zero padding. -/
def byteHexMin (b : Nat) : String :=
  if b < 16 then String.mk [hexDigitChar b]
  else String.mk [hexDigitChar (b / 16 % 16), hexDigitChar (b % 16)]

/-- Fixed two-digit hex of a byte (standard hex encoding, for comparison
with the claim's wording). -/
def byteHex2 (b : Nat) : String :=
  String.mk [hexDigitChar (b / 16 % 16), hexDigitChar (b % 16)]

/-- Decimal digits of `n` (fueled). -/
def decDigits : Nat → Nat → List Char
  | 0, _ => []
  | fuel + 1, n =>
    if n < 10 then [Char.ofNat (48 + n)]
    else decDigits fuel (n / 10) ++ [Char.ofNat (48 + n % 10)]

/-- Rust `format!("{}", n)` for an unsigned integer. -/
def natDec (n : Nat) : String := String.mk (decDigits (n + 1) n)

/-- `handle_request`'s ETag (lib.rs lines 398-403): SHA-256 of
`"{size}:{mtime_secs}"`, first four bytes each written with `{:x}`
(minimal-width lowercase hex), wrapped in double quotes. -/
def etagString (size mtimeSecs : Nat) : String :=
  let raw := strBytes (natDec size ++ ":" ++ natDec mtimeSecs)
  let d := sha256Digest raw
  "\"" ++ byteHexMin (d.getD 0 0) ++ byteHexMin (d.getD 1 0) ++
    byteHexMin (d.getD 2 0) ++ byteHexMin (d.getD 3 0) ++ "\""

/-- The ETag as the claim words it: the first 4 bytes of the digest
hex-encoded (two digits per byte), wrapped in double quotes. -/
def claimEtagString (size mtimeSecs : Nat) : String :=
  let raw := strBytes (natDec size ++ ":" ++ natDec mtimeSecs)
  let d := sha256Digest raw
  "\"" ++ byteHex2 (d.getD 0 0) ++ byteHex2 (d.getD 1 0) ++
    byteHex2 (d.getD 2 0) ++ byteHex2 (d.getD 3 0) ++ "\""

/-! ## WAF (`selenia_core/src/waf.rs`) -/

/-- `eq_ignore_ascii_case` on strings. -/
def eqICStr (a b : String) : Bool := eqIgnoreCase (strBytes a) (strBytes b)

/-- Substring containment (`str::contains`); both needle and haystack are
byte lists. -/
def bytesContain (hay pat : List Nat) : Bool :=
  (List.range (hay.length + 1)).any (fun i => pat.isPrefixOf (hay.drop i))

/-- `COMMON_ATTACK_PATTERNS` (waf.rs).  `"\x3cscript"` in the Rust source
is the same byte string as `"<script"`. -/
def attackPatterns : List (List Nat) :=
  [strBytes "../", strBytes "%2e%2e/", strBytes "union select",
   strBytes "<script", strBytes "<script", strBytes " or 1=1",
   strBytes "etc/passwd"]

/-- `BuiltinWaf::check`: lowercase the path, append the lowercased values
of every User-Agent / Referer header in order, and reject if any pattern
occurs as a substring. -/
def builtinWafCheck (path : String) (headers : List (String × String)) : Bool :=
  let target := (strBytes path).map lowerB ++
    headers.foldl (fun acc kv =>
      if eqICStr kv.1 "user-agent" || eqICStr kv.1 "referer" then
        acc ++ (strBytes kv.2).map lowerB
      else acc) []
  ¬ attackPatterns.any (fun pat => bytesContain target pat)

/-- `waf::evaluate` with the process-wide filter list holding only the
auto-registered `BuiltinWaf` (the state at startup, before any plugin
registers a filter; `method` is ignored by the built-in filter). -/
def wafEvaluate (path : String) (headers : List (String × String)) : Bool :=
  builtinWafCheck path headers

/-! ## RBAC (`selenia_http/src/rbac.rs`) -/

/-- The standard/URL-safe base64 alphabet value of a byte, `0xFF`-style
invalid entries modelled as `none` (`BASE64_LOOKUP`). -/
def b64Val (c : Nat) : Option Nat :=
  if 65 ≤ c ∧ c ≤ 90 then some (c - 65)
  else if 97 ≤ c ∧ c ≤ 122 then some (c - 97 + 26)
  else if 48 ≤ c ∧ c ≤ 57 then some (c - 48 + 52)
  else if c = 43 then some 62
  else if c = 47 then some 63
  else none

/-- The accumulation loop of `decode_base64_simple`: stop at `=`, skip
invalid bytes, emit 3 bytes per 4 values, then flush a 2- or 3-value
remainder. -/
def b64Aux : List Nat → List Nat → List Nat
  | chunk, [] =>
    match chunk with
    | [c0, c1, c2] => [(c0 * 4 + c1 / 16) % 256, (c1 * 16 + c2 / 4) % 256]
    | [c0, c1] => [(c0 * 4 + c1 / 16) % 256]
    | _ => []
  | chunk, b :: rest =>
    if b = 61 then b64Aux chunk []
    else
      match b64Val b with
      | none => b64Aux chunk rest
      | some v =>
        match chunk with
        | [c0, c1, c2] =>
          (c0 * 4 + c1 / 16) % 256 :: (c1 * 16 + c2 / 4) % 256 ::
            (c2 * 64 + v) % 256 :: b64Aux [] rest
        | _ => b64Aux (chunk ++ [v]) rest

/-- `decode_base64_simple` (the Rust `chunk[0]<<2 | chunk[1]>>4` u8
arithmetic, `% 256` making the shifts' truncation explicit). -/
def decodeBase64Simple (inp : List Nat) : List Nat := b64Aux [] inp

/-- `base64_url_decode`: map the URL-safe alphabet onto the standard one
and pad with `=` to a multiple of 4. -/
def base64UrlDecode (s : List Nat) : List Nat :=
  let b := s.map (fun c => if c = 45 then 43 else if c = 95 then 47 else c)
  let b := b ++ List.replicate ((4 - b.length % 4) % 4) 61
  decodeBase64Simple b

/-- First index of `pat` in `hay` (`str::find`). -/
def findSub (hay pat : List Nat) : Option Nat :=
  (List.range (hay.length + 1)).find? (fun i => pat.isPrefixOf (hay.drop i))

/-- `trim_matches('"')`: strip all leading and trailing double quotes. -/
def trimQuotes (l : List Nat) : List Nat :=
  ((l.dropWhile (· = 34)).reverse.dropWhile (· = 34)).reverse

/-- Split a byte list on a separator byte (Rust `split`). -/
def splitByte (sep : Nat) (l : List Nat) : List (List Nat) := l.splitOn sep

/-- `extract_roles`: three dot-separated JWT segments, URL-safe base64
decode of the middle one, then a textual scan for the `"roles"` claim's
bracketed list.  `str::from_utf8` is modelled as requiring ASCII (every
JWT this development evaluates is ASCII). -/
def extractRoles (token : List Nat) : List (List Nat) :=
  match splitByte 46 token with
  | [_, payloadB64, _] =>
    let s := base64UrlDecode payloadB64
    if s.all (· < 128) then
      match findSub s (strBytes "\"roles\"") with
      | none => []
      | some idx =>
        match findSub (s.drop idx) (strBytes "[") with
        | none => []
        | some start =>
          match findSub (s.drop (idx + start)) (strBytes "]") with
          | none => []
          | some e =>
            let list := sliceL s (idx + start + 1) (idx + start + e)
            (splitByte 44 list).map trimQuotes
    else []
  | _ => []

/-- An RBAC policy (`struct Policy`): path prefix and required roles. -/
structure Policy where
  pfx : List Nat
  roles : List (List Nat)
  deriving Repr

/-- `rbac::validate` with the loaded policy list as a parameter (the Rust
code keeps it in a process-wide static).  Longest matching prefix wins
(the first of equal length); no match allows; else the Bearer JWT's
`roles` claim must intersect the rule's roles. -/
def rbacValidate (policies : List Policy) (path : List Nat)
    (auth : Option (List Nat)) : Bool :=
  let matched := policies.foldl (fun m p =>
    if p.pfx.isPrefixOf path then
      match m with
      | none => some p
      | some m' => if p.pfx.length > m'.pfx.length then some p else m
    else m) none
  match matched with
  | none => true
  | some policy =>
    match auth with
    | none => false
    | some h =>
      if (strBytes "Bearer ").isPrefixOf h then
        let roles := extractRoles (h.drop 7)
        policy.roles.any (fun r => roles.contains r)
      else false

/-! ## Static-file dispatch (`handle_request` and helpers, lib.rs) -/

/-- File-system model: `files` answers `fs::metadata` + `is_file` +
`fs::read` (a present entry is a regular file with that content and
mtime), `dirs` answers `Path::is_dir`, and `canon` answers
`Path::canonicalize` (`none` = `Err`, e.g. a non-existent path). -/
structure FsModel where
  files : String → Option (List Nat × Nat)
  dirs : String → Bool
  canon : String → Option String

/-- Split a string at a character (Rust `str::split(char)`). -/
def charSplit (c : Char) (s : String) : List String :=
  (s.toList.splitOn c).map String.mk

/-- `Path::join` for string paths. -/
def joinPath (r p : String) : String :=
  if r.toList.isEmpty then p
  else if r.toList.getLast? = some '/' then r ++ p else r ++ "/" ++ p

/-- `Path::starts_with`: component-wise prefix. -/
def pathStartsWith (p base : String) : Bool :=
  (charSplit '/' base).isPrefixOf (charSplit '/' p)

/-- Substring containment on strings. -/
def strContains (hay pat : String) : Bool :=
  bytesContain (strBytes hay) (strBytes pat)

/-- The first three lines of `sanitize_path`: keep the request target up
to the first `?` or `#`, trim leading slashes, default to `index.html`. -/
def strippedPathComponent (uriPath : String) : String :=
  let p := (uriPath.toList.takeWhile (fun c => c ≠ '?' ∧ c ≠ '#')).dropWhile (· = '/')
  if p.isEmpty then "index.html" else String.mk p

/-- `sanitize_path` (lib.rs lines 546-563): strip query/fragment, trim
leading slashes, default to `index.html`, reject `..` with the sentinel
`/invalid`, reject canonicalized escapes from the root, and enter
directories at their `index.html`. -/
def sanitizePath (fs : FsModel) (rootDir uriPath : String) : String :=
  let p := strippedPathComponent uriPath
  if strContains p ".." then "/invalid"
  else
    let full := joinPath rootDir p
    let escaped : Bool :=
      match fs.canon full, fs.canon rootDir with
      | some fullCanon, some rootCanon => ! pathStartsWith fullCanon rootCanon
      | _, _ => false
    if escaped then "/invalid"
    else if fs.dirs full then joinPath full "index.html" else full

/-- `guess_mime`: by the extension of the final path component. -/
def guessMime (path : String) : String :=
  let final := (charSplit '/' path).getLastD ""
  let ext :=
    match charSplit '.' final with
    | [] => none
    | [_] => none
    | parts => some (parts.getLastD "")
  match ext with
  | some "html" => "text/html"
  | some "css" => "text/css"
  | some "js" => "application/javascript"
  | some "png" => "image/png"
  | some "jpg" => "image/jpeg"
  | some "jpeg" => "image/jpeg"
  | some "gif" => "image/gif"
  | some "svg" => "image/svg+xml"
  | _ => "application/octet-stream"

/-- `s.parse::<f32>()` restricted to plain decimal forms
`[+|-]digits[.digits]`, as a signed numerator over a power-of-ten
denominator.  (Exponent forms, infinities and `f32` rounding of
magnitudes below the subnormal range — none of which arise in the
Accept-Encoding q-values this development evaluates — are not
modelled.) -/
def parseDecimal (s : List Nat) : Option (Int × Nat) :=
  let (neg, s') : Bool × List Nat :=
    match s with
    | 43 :: rest => (false, rest)
    | 45 :: rest => (true, rest)
    | _ => (false, s)
  match splitByte 46 s' with
  | [ip] =>
    match parseUsize ip with
    | some n => some (if neg then -(n : Int) else (n : Int), 1)
    | none => none
  | [ip, fp] =>
    if ip.isEmpty ∧ fp.isEmpty then none
    else
      let ipn := if ip.isEmpty then some 0 else parseUsize ip
      let fpn := if fp.isEmpty then some 0 else parseUsize fp
      match ipn, fpn with
      | some i, some f =>
        let den := 10 ^ fp.length
        let num := i * den + f
        some (if neg then -(num : Int) else (num : Int), den)
      | _, _ => none
  | _ => none

/-- The `accept_gzip` computation (lib.rs lines 362-380): over every
Accept-Encoding header, split on commas, read the encoding token and the
optional `q=` parameter (default 1), and accept when some entry is
exactly `gzip` with q > 0. -/
def acceptsGzip (headers : List (String × String)) : Bool :=
  (headers.filter (fun kv => eqICStr kv.1 "Accept-Encoding")).any fun kv =>
    (splitByte 44 (strBytes kv.2)).any fun e =>
      let parts := splitByte 59 (listTrim e)
      match parts with
      | [] => false
      | enc :: ps =>
        let enc := listTrim enc
        let q := (ps.findSome? fun p =>
          match splitByte 61 (listTrim p) with
          | kk :: rest =>
            if kk = strBytes "q" then
              match rest with
              | v :: _ => some v
              | [] => none
            else none
          | [] => none)
        let qPos :=
          match q with
          | none => true
          | some v =>
            match parseDecimal v with
            | some (num, _) => decide (num > 0)
            | none => true
        (enc == strBytes "gzip") && qPos

/-- The Range-header fold (lib.rs lines 419-440): a single
`bytes=start-end` or suffix `bytes=-N` form; `total_len - 1` and
`total_len - e` are the Rust `u64` subtractions, which wrap modulo 2^64
(debug builds panic right there on underflow). -/
def rangeFold (headers : List (String × String)) (totalLen : Nat) :
    Option (Nat × Nat) :=
  headers.foldl (fun range kv =>
    if eqICStr kv.1 "Range" then
      let v := strBytes kv.2
      if (strBytes "bytes=").isPrefixOf v then
        let r := v.drop 6
        match splitByte 45 r with
        | [p0, p1] =>
          let startOpt := if ¬ p0.isEmpty then parseUsize p0 else none
          let endOpt := if ¬ p1.isEmpty then parseUsize p1 else none
          match startOpt with
          | some s =>
            let e := endOpt.getD ((totalLen + 2 ^ 64 - 1) % 2 ^ 64)
            if s ≤ e ∧ e < totalLen then some (s, e) else range
          | none =>
            match endOpt with
            | some e =>
              if e ≠ 0 then
                some ((totalLen + 2 ^ 64 - e % 2 ^ 64) % 2 ^ 64,
                      (totalLen + 2 ^ 64 - 1) % 2 ^ 64)
              else range
            | none => range
        | _ => range
      else range
    else range) none

/-- `&full_body[s ..= e]`: `none` models the Rust slice-index panic. -/
def sliceInclusive (body : List Nat) (s e : Nat) : Option (List Nat) :=
  if s ≤ e + 1 ∧ e + 1 ≤ body.length then some (sliceL body s (e + 1)) else none

/-- `CacheCfg` fields used by the Cache-Control header. -/
structure CacheCfg where
  maxAge : Nat
  swr : Nat
  deriving Repr, DecidableEq

/-- A virtual host entry. -/
structure VHostCfg where
  domain : String
  root : String
  cache : Option CacheCfg
  deriving Repr, DecidableEq

/-- The `ServerConfig` fields `handle_request` reads: document root,
virtual hosts, cache policy, and whether a TLS certificate is configured
(`cfg.tls_cert.is_some()`). -/
structure SrvConfig where
  rootDir : String
  vhosts : List VHostCfg
  cache : Option CacheCfg
  tls : Bool
  deriving Repr

/-- A written response: numeric status, the first line, the header lines
in emission order (CRLFs and the final blank line elided), and the body
bytes actually written. -/
structure HttpResponse where
  status : Nat
  statusLine : String
  headerLines : List String
  body : List Nat
  deriving Repr, DecidableEq

/-- The keep-alive header lines both emitters share. -/
def connLines (keepAlive : Bool) : List String :=
  if keepAlive then ["Connection: keep-alive", "Keep-Alive: timeout=30, max=100"]
  else ["Connection: close"]

/-- The Strict-Transport-Security line. -/
def hstsLine : String :=
  "Strict-Transport-Security: max-age=31536000; includeSubDomains"

/-- `respond_simple` (lib.rs): note the status line carries no reason
phrase, just a trailing space. -/
def respondSimple (version : String) (status : Nat) (body : String)
    (keepAlive tls : Bool) (tpLine : String) : HttpResponse :=
  { status
    statusLine := version ++ " " ++ natDec status ++ " "
    headerLines :=
      ["Content-Length: " ++ natDec (strBytes body).length,
       "Content-Type: text/plain; charset=utf-8"] ++
      (if tls then [hstsLine] else []) ++ connLines keepAlive ++ [tpLine]
    body := strBytes body }

/-- `handle_request` (lib.rs lines 277-491) for the pure request/response
behavior: WAF, method check, RBAC, the /metrics endpoint, vhost
selection, path sanitization, ETag/If-None-Match, Range, and response
assembly.  Parameters stand for the ambient effects the Rust code reads:
`fs` for the file system, `policies` for the process-wide RBAC rules,
`translate` for the locale table, `metricsBody` for `metrics::render()`,
and `tpLine` for the traceparent header line (derived from the request or
random generation).  `none` models a panic (reachable only in the Range
slicing).  Metrics counters, logging and OTel export have no effect on
the response and are omitted. -/
def handleRequest (fs : FsModel) (policies : List Policy)
    (translate : String → String) (metricsBody : String)
    (version method path : String) (headers : List (String × String))
    (cfg : SrvConfig) (keepAlive : Bool) (tpLine : String) :
    Option HttpResponse :=
  if ¬ wafEvaluate path headers then
    some (respondSimple version 403 "Forbidden" keepAlive cfg.tls tpLine)
  else if method ≠ "GET" ∧ method ≠ "HEAD" then
    some (respondSimple version 405 (translate "http.method_not_allowed")
      keepAlive cfg.tls tpLine)
  else
    let auth := (headers.find? (fun kv => eqICStr kv.1 "Authorization")).map
      (fun kv => strBytes kv.2)
    if ¬ rbacValidate policies (strBytes path) auth then
      some (respondSimple version 403 "Forbidden" keepAlive cfg.tls tpLine)
    else if path = "/metrics" then
      some { status := 200
             statusLine := version ++ " 200 OK"
             headerLines :=
               ["Content-Type: text/plain; version=0",
                "Content-Length: " ++ natDec (strBytes metricsBody).length,
                tpLine] ++ connLines keepAlive
             body := strBytes metricsBody }
    else
      let eff :=
        match (headers.find? (fun kv => eqICStr kv.1 "Host")).bind (fun kv =>
          let host := ((charSplit ':' kv.2).headD kv.2)
          cfg.vhosts.find? (fun vh => vh.domain = host)) with
        | some vh => (vh.root, if vh.cache.isSome then vh.cache else cfg.cache)
        | none => (cfg.rootDir, cfg.cache)
      let fsPath := sanitizePath fs eff.1 path
      let acceptGzip := acceptsGzip headers
      match fs.files fsPath with
      | none =>
        some (respondSimple version 404 (translate "http.not_found")
          keepAlive cfg.tls tpLine)
      | some (content, mtimeSecs) =>
        let totalLen := content.length
        let etag := etagString totalLen mtimeSecs
        if headers.any (fun kv => eqICStr kv.1 "If-None-Match" && kv.2 == etag) then
          some (respondSimple version 304 "" keepAlive cfg.tls tpLine)
        else
          let bodyStatusCr : Option (List Nat × Nat × Option String) :=
            match rangeFold headers totalLen with
            | some (s, e) =>
              match sliceInclusive content s e with
              | none => none
              | some sl =>
                some (sl, 206, some ("bytes " ++ natDec s ++ "-" ++ natDec e ++
                  "/" ++ natDec totalLen))
            | none => some (content, 200, none)
          match bodyStatusCr with
          | none => none
          | some (body, status, cr) =>
            let mime := guessMime fsPath
            some { status
                   statusLine := version ++ " " ++ natDec status ++ " OK"
                   headerLines :=
                     ["Content-Type: " ++ mime] ++
                     (match cr with
                      | some c => ["Content-Range: " ++ c]
                      | none => []) ++
                     (if cfg.tls then [hstsLine] else []) ++
                     (match eff.2 with
                      | some cc =>
                        ["Cache-Control: max-age=" ++ natDec cc.maxAge ++
                         ", stale-while-revalidate=" ++ natDec cc.swr]
                      | none => []) ++
                     connLines keepAlive ++
                     ["ETag: " ++ etag,
                      "Content-Length: " ++ natDec body.length] ++
                     (if acceptGzip then ["Content-Encoding: gzip"] else []) ++
                     [tpLine]
                   body := if method ≠ "HEAD" then body else [] }

/-! Concrete fixtures used by the evaluation theorems. -/

/-- A file system holding one 13-byte file `root/index.html`
("hello, world\n", mtime 5 s); `canonicalize` fails everywhere (the
checks are skipped, as for non-existent paths). -/
def fsHello : FsModel :=
  { files := fun p =>
      if p = "root/index.html" then some (strBytes "hello, world\n", 5) else none
    dirs := fun _ => false
    canon := fun _ => none }

/-- A file system holding one 10-byte file `root/a.bin`. -/
def fsBin10 : FsModel :=
  { files := fun p =>
      if p = "root/a.bin" then some (strBytes "0123456789", 7) else none
    dirs := fun _ => false
    canon := fun _ => none }

/-- A fixed locale table for the fixtures. -/
def trFix : String → String := fun k =>
  if k = "http.not_found" then "Not Found"
  else if k = "http.method_not_allowed" then "Method Not Allowed"
  else k

/-- A vhost-free configuration rooted at `root`, no TLS, no cache. -/
def cfgFix : SrvConfig := ⟨"root", [], none, false⟩

/-! ## HPACK codec (`selenia_http/src/hpack.rs`)

Header names/values are `String`s (the Rust code materialises `String`s);
`str::len` is the ASCII byte length via `strBytes`. -/

/-- `H_CODES` (hpack.rs). -/
def hCodes : List Nat :=
  [0x1ff8, 0x7fffd8, 0xfffffe2, 0xfffffe3, 0xfffffe4, 0xfffffe5, 0xfffffe6, 
   0xfffffe7, 0xfffffe8, 0xffffea, 0x3ffffffc, 0xfffffe9, 0xfffffea, 
   0x3ffffffd, 0xfffffeb, 0xfffffec, 0xfffffed, 0xfffffee, 0xfffffef, 
   0xffffff0, 0xffffff1, 0xffffff2, 0x3ffffffe, 0xffffff3, 0xffffff4, 
   0xffffff5, 0xffffff6, 0xffffff7, 0xffffff8, 0xffffff9, 0xffffffa, 
   0xffffffb, 0x14, 0x3f8, 0x3f9, 0xffa, 0x1ff9, 0x15, 0xf8, 0x7fa, 0x3fa, 
   0x3fb, 0xf9, 0x7fb, 0xfa, 0x16, 0x17, 0x18, 0x0, 0x1, 0x2, 0x19, 0x1a, 
   0x1b, 0x1c, 0x1d, 0x1e, 0x1f, 0x5c, 0xfb, 0x7ffc, 0x20, 0xffb, 0x3fc, 
   0x1ffa, 0x21, 0x5d, 0x5e, 0x5f, 0x60, 0x61, 0x62, 0x63, 0x64, 0x65, 0x66, 
   0x67, 0x68, 0x69, 0x6a, 0x6b, 0x6c, 0x6d, 0x6e, 0x6f, 0x70, 0x71, 0x72, 
   0xfc, 0x73, 0xfd, 0x1ffb, 0x7fff0, 0x1ffc, 0x3ffc, 0x22, 0x7ffd, 0x3, 
   0x23, 0x4, 0x24, 0x5, 0x25, 0x26, 0x27, 0x6, 0x74, 0x75, 0x28, 0x29, 0x2a, 
   0x7, 0x2b, 0x76, 0x2c, 0x8, 0x9, 0x2d, 0x77, 0x78, 0x79, 0x7a, 0x7b, 
   0x7ffe, 0x7fc, 0x3ffd, 0x1ffd, 0xffffffc, 0xfffe6, 0x3fffd2, 0xfffe7, 
   0xfffe8, 0x3fffd3, 0x3fffd4, 0x3fffd5, 0x7fffd9, 0x3fffd6, 0x7fffda, 
   0x7fffdb, 0x7fffdc, 0x7fffdd, 0x7fffde, 0xffffeb, 0x7fffdf, 0xffffec, 
   0xffffed, 0x3fffd7, 0x7fffe0, 0xffffee, 0x7fffe1, 0x7fffe2, 0x7fffe3, 
   0x7fffe4, 0x1fffdc, 0x3fffd8, 0x7fffe5, 0x3fffd9, 0x7fffe6, 0x7fffe7, 
   0xffffef, 0x3fffda, 0x1fffdd, 0xfffe9, 0x3fffdb, 0x3fffdc, 0x7fffe8, 
   0x7fffe9, 0x1fffde, 0x7fffea, 0x3fffdd, 0x3fffde, 0xfffff0, 0x1fffdf, 
   0x3fffdf, 0x7fffeb, 0x7fffec, 0x1fffe0, 0x1fffe1, 0x3fffe0, 0x1fffe2, 
   0x7fffed, 0x3fffe1, 0x7fffee, 0x7fffef, 0xfffea, 0x3fffe2, 0x3fffe3, 
   0x3fffe4, 0x7ffff0, 0x3fffe5, 0x3fffe6, 0x7ffff1, 0x3ffffe0, 0x3ffffe1, 
   0xfffeb, 0x7fff1, 0x3fffe7, 0x7ffff2, 0x3fffe8, 0x1ffffec, 0x3ffffe2, 
   0x3ffffe3, 0x3ffffe4, 0x7ffffde, 0x7ffffdf, 0x3ffffe5, 0xfffff1, 
   0x1ffffed, 0x7fff2, 0x1fffe3, 0x3ffffe6, 0x7ffffe0, 0x7ffffe1, 0x3ffffe7, 
   0x7ffffe2, 0xfffff2, 0x1fffe4, 0x1fffe5, 0x3ffffe8, 0x3ffffe9, 0xffffffd, 
   0x7ffffe3, 0x7ffffe4, 0x7ffffe5, 0xfffec, 0xfffff3, 0xfffed, 0x1fffe6, 
   0x3fffe9, 0x1fffe7, 0x1fffe8, 0x7ffff3, 0x3fffea, 0x3fffeb, 0x1ffffee, 
   0x1ffffef, 0xfffff4, 0xfffff5, 0x3ffffea, 0x7ffff4, 0x3ffffeb, 0x7ffffe6, 
   0x3ffffec, 0x3ffffed, 0x7ffffe7, 0x7ffffe8, 0x7ffffe9, 0x7ffffea, 
   0x7ffffeb, 0xffffffe, 0x7ffffec, 0x7ffffed, 0x7ffffee, 0x7ffffef, 
   0x7fffff0, 0x3ffffee, 0x3fffffff]

/-- `H_BITS` (hpack.rs). -/
def hBits : List Nat :=
  [13, 23, 28, 28, 28, 28, 28, 28, 28, 24, 30, 28, 28, 30, 28, 28, 28, 28, 
   28, 28, 28, 28, 30, 28, 28, 28, 28, 28, 28, 28, 28, 28, 6, 10, 10, 12, 13, 
   6, 8, 11, 10, 10, 8, 11, 8, 6, 6, 6, 5, 5, 5, 6, 6, 6, 6, 6, 6, 6, 7, 8, 
   15, 6, 11, 10, 13, 6, 7, 7, 7, 7, 7, 7, 7, 7, 7, 7, 7, 7, 7, 7, 7, 7, 7, 
   7, 7, 7, 7, 8, 7, 8, 13, 19, 13, 14, 6, 15, 5, 6, 5, 6, 5, 6, 6, 6, 5, 7, 
   7, 6, 6, 6, 5, 6, 7, 6, 5, 5, 6, 7, 7, 7, 7, 7, 15, 11, 14, 13, 28, 20, 
   22, 20, 20, 22, 22, 22, 23, 22, 23, 23, 23, 23, 23, 20, 23, 20, 20, 22, 
   23, 20, 23, 23, 23, 23, 21, 22, 23, 22, 23, 23, 20, 22, 21, 20, 22, 22, 
   23, 23, 21, 23, 22, 22, 20, 21, 22, 23, 23, 21, 21, 22, 21, 23, 22, 23, 
   23, 20, 22, 22, 22, 23, 22, 22, 23, 26, 26, 20, 19, 22, 23, 22, 25, 26, 
   26, 26, 27, 27, 26, 20, 25, 19, 21, 26, 27, 27, 26, 27, 20, 21, 21, 26, 
   26, 28, 27, 27, 27, 20, 20, 20, 21, 22, 21, 21, 23, 22, 22, 25, 25, 20, 
   20, 26, 23, 26, 27, 26, 26, 27, 27, 27, 27, 27, 28, 27, 27, 27, 27, 27, 
   26, 30, 0]

/-- `STATIC_TABLE` (hpack.rs, RFC 7541 Appendix A). -/
def staticTable : List (String × String) :=
  [(":authority", ""), (":method", "GET"), (":method", "POST"), 
   (":path", "/"), (":path", "/index.html"), (":scheme", "http"), 
   (":scheme", "https"), (":status", "200"), (":status", "204"), 
   (":status", "206"), (":status", "304"), (":status", "400"), 
   (":status", "404"), (":status", "500"), ("accept-charset", ""), 
   ("accept-encoding", "gzip, deflate, br"), ("accept-language", ""), 
   ("accept-ranges", ""), ("accept", ""), 
   ("access-control-allow-origin", ""), ("age", ""), ("allow", ""), 
   ("authorization", ""), ("cache-control", ""), ("content-disposition", ""), 
   ("content-encoding", ""), ("content-language", ""), 
   ("content-length", ""), ("content-location", ""), ("content-range", ""), 
   ("content-type", ""), ("cookie", ""), ("date", ""), ("etag", ""), 
   ("expect", ""), ("expires", ""), ("from", ""), ("host", ""), 
   ("if-match", ""), ("if-modified-since", ""), ("if-none-match", ""), 
   ("if-range", ""), ("if-unmodified-since", ""), ("last-modified", ""), 
   ("link", ""), ("location", ""), ("max-forwards", ""), 
   ("proxy-authenticate", ""), ("proxy-authorization", ""), ("range", ""), 
   ("referer", ""), ("refresh", ""), ("retry-after", ""), ("server", ""), 
   ("set-cookie", ""), ("strict-transport-security", ""), 
   ("transfer-encoding", ""), ("user-agent", ""), ("vary", ""), ("via", ""), 
   ("www-authenticate", "")]
/-- A binary Huffman trie node (`struct HuffNode`). -/
inductive HuffTrie where
  | mk : Option HuffTrie → Option HuffTrie → Option Nat → HuffTrie

def HuffTrie.left : HuffTrie → Option HuffTrie
  | .mk l _ _ => l

def HuffTrie.right : HuffTrie → Option HuffTrie
  | .mk _ r _ => r

def HuffTrie.sym : HuffTrie → Option Nat
  | .mk _ _ s => s

/-- The bits of `code`, most significant of `blen` first
(`for i in (0..bits).rev()`). -/
def codeBits (code blen : Nat) : List Bool :=
  (List.range blen).reverse.map (fun i => code / 2 ^ i % 2 = 1)

/-- Insert one code path into the trie (`get_or_insert_with` on each
branch, symbol stored at the leaf). -/
def huffInsert : HuffTrie → List Bool → Nat → HuffTrie
  | .mk l r _, [], sym => .mk l r (some sym)
  | .mk l r s, false :: bits, sym =>
    .mk (some (huffInsert (l.getD (.mk none none none)) bits sym)) r s
  | .mk l r s, true :: bits, sym =>
    .mk l (some (huffInsert (r.getD (.mk none none none)) bits sym)) s

/-- `build_huff_trie`: all 257 symbols inserted in order. -/
def buildHuffTrie : HuffTrie :=
  (List.range 257).foldl (fun t sym =>
    huffInsert t (codeBits (hCodes.getD sym 0) (hBits.getD sym 0)) sym)
    (.mk none none none)

/-- A byte sequence as bits, most significant bit of each byte first (the
order `huffman_decode` consumes its `buffer`). -/
def bytesToBits (l : List Nat) : List Bool :=
  l.flatMap (fun b => (List.range 8).reverse.map (fun i => b / 2 ^ i % 2 = 1))

/-- The bit-walking loop of `huffman_decode`: follow the trie, reject the
EOS symbol, emit and restart at the root on every completed code. -/
def huffWalk (root : HuffTrie) : HuffTrie → List Bool → Option (List Nat)
  | _, [] => some []
  | cur, bit :: bits =>
    match (if bit then cur.right else cur.left) with
    | none => none
    | some nxt =>
      match nxt.sym with
      | some s =>
        if s = 256 then none
        else (huffWalk root root bits).map (fun out => s :: out)
      | none => huffWalk root nxt bits

/-- `huffman_decode`: trie walk plus the final padding check
`(1..=7).any(|n| buffer & mask(n) == mask(n))` over the (u64, hence
`% 2 ^ 64`) bit accumulator — note that a code ending exactly on a byte
boundary with a final 0 bit fails this check. -/
def huffmanDecode (input : List Nat) : Option (List Nat) :=
  match huffWalk buildHuffTrie buildHuffTrie (bytesToBits input) with
  | none => none
  | some out =>
    let buffer := input.foldl (fun acc b => (acc * 256 + b) % 2 ^ 64) 0
    if (List.range 7).any (fun k => buffer % 2 ^ (k + 1) = 2 ^ (k + 1) - 1)
    then some out else none

/-- The byte-emission loop of `huffman_encode` (`while bits >= 8`); at
most 8 iterations since the accumulator never holds 64 bits. -/
def emitLoop : Nat → Nat → Nat → List Nat × Nat
  | 0, _, bits => ([], bits)
  | fuel + 1, bitbuf, bits =>
    if bits ≥ 8 then
      let bits' := bits - 8
      let (rest, b) := emitLoop fuel bitbuf bits'
      (bitbuf / 2 ^ bits' % 256 :: rest, b)
    else ([], bits)

/-- `huffman_encode`: pack each symbol's code MSB-first, pad the final
partial byte with 1 bits. -/
def huffmanEncode (data : List Nat) : List Nat :=
  let st := data.foldl (fun st b =>
    match st with
    | (out, bitbuf, bits) =>
      let code := hCodes.getD (b % 256) 0
      let blen := hBits.getD (b % 256) 0
      let bitbuf := (bitbuf * 2 ^ blen + code) % 2 ^ 64
      let bits := bits + blen
      let (emitted, bits') := emitLoop 8 bitbuf bits
      (out ++ emitted, bitbuf, bits')) (([] : List Nat), 0, 0)
  match st with
  | (out, bitbuf, bits) =>
    if bits > 0 then
      out ++ [((bitbuf * 2 ^ bits + (2 ^ bits - 1)) % 2 ^ 64) % 256]
    else out

/-- The continuation loop of `encode_integer` (7-bit groups, high bit =
continue); fueled on the strictly shrinking value. -/
def intCont : Nat → Nat → List Nat
  | 0, v => [v]
  | fuel + 1, v =>
    if v ≥ 0x80 then (v % 0x80 + 0x80) :: intCont fuel (v / 0x80) else [v]

/-- `encode_integer` with an N-bit prefix. -/
def encodeInteger (value : Nat) (prefixBits : Nat) : List Nat :=
  let maxP := 2 ^ prefixBits - 1
  if value < maxP then [value] else maxP :: intCont (value + 1) (value - maxP)

/-- `bytes[0] |= m`. -/
def orHead (l : List Nat) (m : Nat) : List Nat :=
  match l with
  | [] => []
  | h :: t => (h ||| m) :: t

/-- The continuation loop of `decode_integer`. -/
def decIntLoop (buf : List Nat) : Nat → Nat → Nat → Nat → Option (Nat × Nat)
  | 0, _, _, _ => none
  | fuel + 1, idx, m, val =>
    match buf.get? idx with
    | none => none
    | some b =>
      let val := val + b % 0x80 * 2 ^ m
      if b / 0x80 % 2 = 1 then decIntLoop buf fuel (idx + 1) (m + 7) val
      else some (val, idx + 1)

/-- `decode_integer`: value and bytes consumed. -/
def decodeInteger (buf : List Nat) (prefixBits : Nat) : Option (Nat × Nat) :=
  match buf with
  | [] => none
  | b0 :: _ =>
    let mask := 2 ^ prefixBits - 1
    let val := b0 % 256 &&& mask
    if val = mask then decIntLoop buf (buf.length + 1) 1 0 val
    else some (val, 1)

/-- `encode_string`: Huffman when strictly smaller than the
`HUFFMAN_THRESHOLD` (0.8) fraction of the plain size, else plain.  The
Rust comparison is in `f32`; `5 * huff < 4 * plain` is the exact 0.8
threshold, which agrees with the `f32` evaluation at every string length
arising in this development. -/
def encodeString (s : String) : List Nat :=
  let bytes := strBytes s
  let huff := huffmanEncode bytes
  if huff.length * 5 < bytes.length * 4 then
    orHead (encodeInteger huff.length 7) 0x80 ++ huff
  else
    encodeInteger bytes.length 7 ++ bytes

/-- ASCII bytes back to a string. -/
def bytesAsString (l : List Nat) : String := String.mk (l.map Char.ofNat)

/-- `decode_string`: string and bytes consumed.  `String::from_utf8` is
modelled as requiring ASCII (every header this development evaluates is
ASCII). -/
def decodeString (buf : List Nat) : Option (String × Nat) :=
  match buf with
  | [] => none
  | b0 :: _ =>
    let huffman := b0 / 0x80 % 2 = 1
    match decodeInteger buf 7 with
    | none => none
    | some (len, idx) =>
      if buf.length < idx + len then none
      else
        let data := sliceL buf idx (idx + len)
        match (if huffman then huffmanDecode data else some data) with
        | none => none
        | some bytes =>
          if bytes.all (· < 128) then some (bytesAsString bytes, idx + len)
          else none

/-- `Entry::new`'s size: name.len() + value.len() + 32. -/
def entrySize (nv : String × String) : Nat :=
  (strBytes nv.1).length + (strBytes nv.2).length + 32

/-- `evict_to_size`: pop tail entries until the size bound holds. -/
def evictToSize : Nat → List (String × String) → Nat → Nat →
    List (String × String) × Nat
  | 0, tab, size, _ => (tab, size)
  | fuel + 1, tab, size, max =>
    if size > max then
      match tab.getLast? with
      | some old => evictToSize fuel tab.dropLast (size - entrySize old) max
      | none => (tab, size)
    else (tab, size)

/-- `DEFAULT_DYNAMIC_TABLE_SIZE`. -/
def defaultDynSize : Nat := 4096

/-- Encoder/decoder dynamic-table state (`VecDeque<Entry>` with the most
recent entry at the head, plus the running size and the size bound). -/
structure HpackTable where
  dynTab : List (String × String)
  size : Nat
  maxSize : Nat
  deriving Repr, DecidableEq

/-- `HpackEncoder::new` / `HpackDecoder::new`. -/
def HpackTable.new : HpackTable := ⟨[], 0, defaultDynSize⟩

/-- The shared insertion step (`push_front` + eviction, skipped when a
single entry exceeds the table bound). -/
def HpackTable.insert (st : HpackTable) (nv : String × String) : HpackTable :=
  if entrySize nv ≤ st.maxSize then
    let size := st.size + entrySize nv
    let tab := nv :: st.dynTab
    let (tab, size) := evictToSize (tab.length + 1) tab size st.maxSize
    ⟨tab, size, st.maxSize⟩
  else st

/-- One header through `HpackEncoder::encode`: indexed on an exact
static/dynamic match; else literal with incremental indexing, using a
name index when the name occurs in either table — for a dynamic-table
name match the emitted index is `position + 1` without the static-table
offset. -/
def hpackEncodeOne (st : HpackTable) (nv : String × String) :
    List Nat × HpackTable :=
  match staticTable.findIdx? (fun e => e.1 = nv.1 ∧ e.2 = nv.2) with
  | some idx => (orHead (encodeInteger (idx + 1) 7) 0x80, st)
  | none =>
    match st.dynTab.findIdx? (fun e => e.1 = nv.1 ∧ e.2 = nv.2) with
    | some idx =>
      (orHead (encodeInteger (staticTable.length + idx + 1) 7) 0x80, st)
    | none =>
      let nameIndex :=
        match staticTable.findIdx? (fun e => e.1 = nv.1) with
        | some i => some (i + 1)
        | none =>
          match st.dynTab.findIdx? (fun e => e.1 = nv.1) with
          | some i => some (i + 1)
          | none => none
      let head :=
        match nameIndex with
        | some nidx => orHead (encodeInteger nidx 6) 0x40
        | none => 0x40 :: encodeString nv.1
      (head ++ encodeString nv.2, st.insert nv)

/-- `HpackEncoder::encode` over a header list. -/
def hpackEncodeAll (st : HpackTable) :
    List (String × String) → List Nat × HpackTable
  | [] => ([], st)
  | nv :: rest =>
    let (bytes, st') := hpackEncodeOne st nv
    let (more, st'') := hpackEncodeAll st' rest
    (bytes ++ more, st'')

/-- `HpackEncoder::encode` from a fresh encoder. -/
def hpackEncode (headers : List (String × String)) : List Nat :=
  (hpackEncodeAll HpackTable.new headers).1

/-- `enum HpackError`. -/
inductive HpackErr where
  | invalidIndex | invalidHuffman | invalidRepresentation | integer | utf8
  deriving Repr, DecidableEq

/-- `HpackDecoder::resolve_index`: 1-based; 1..=61 static, above that the
dynamic table. -/
def resolveIndex (st : HpackTable) (index : Nat) :
    Except HpackErr (String × String) :=
  if index = 0 then .error .invalidIndex
  else if index ≤ staticTable.length then
    match staticTable.get? (index - 1) with
    | some e => .ok e
    | none => .error .invalidIndex
  else
    let dynIndex := index - staticTable.length
    if dynIndex = 0 ∨ dynIndex > st.dynTab.length then .error .invalidIndex
    else
      match st.dynTab.get? (dynIndex - 1) with
      | some e => .ok e
      | none => .error .invalidIndex

/-- The `while !buf.is_empty()` loop of `HpackDecoder::decode`; every
iteration consumes at least one byte, so `buf.length + 1` fuel always
suffices. -/
def hpackDecodeLoop : Nat → HpackTable → List Nat →
    Except HpackErr (List (String × String))
  | 0, _, _ => .error .integer
  | fuel + 1, st, buf =>
    match buf with
    | [] => .ok []
    | b :: _ =>
      if b / 0x80 % 2 = 1 then
        match decodeInteger buf 7 with
        | none => .error .integer
        | some (index, consumed) =>
          match resolveIndex st index with
          | .error e => .error e
          | .ok nv =>
            match hpackDecodeLoop fuel st (buf.drop consumed) with
            | .error e => .error e
            | .ok hs => .ok (nv :: hs)
      else if b / 0x40 % 2 = 1 then
        let nameStep : Except HpackErr (String × List Nat) :=
          if b % 0x40 = 0 then
            match decodeString (buf.drop 1) with
            | none => .error .utf8
            | some (n, c1) => .ok (n, (buf.drop 1).drop c1)
          else
            match decodeInteger buf 6 with
            | none => .error .integer
            | some (idx, c1) =>
              match resolveIndex st idx with
              | .error e => .error e
              | .ok nv => .ok (nv.1, buf.drop c1)
        match nameStep with
        | .error e => .error e
        | .ok (name, buf') =>
          match decodeString buf' with
          | none => .error .utf8
          | some (val, c2) =>
            let st' := st.insert (name, val)
            match hpackDecodeLoop fuel st' (buf'.drop c2) with
            | .error e => .error e
            | .ok hs => .ok ((name, val) :: hs)
      else if b / 0x20 % 2 = 1 then
        match decodeInteger buf 5 with
        | none => .error .integer
        | some (newSize, consumed) =>
          if newSize > st.maxSize then .error .invalidRepresentation
          else
            let (tab, size) :=
              evictToSize (st.dynTab.length + 1) st.dynTab st.size newSize
            hpackDecodeLoop fuel ⟨tab, size, newSize⟩ (buf.drop consumed)
      else
        let nameStep : Except HpackErr (String × List Nat) :=
          if b % 0x10 = 0 then
            match decodeString (buf.drop 1) with
            | none => .error .utf8
            | some (n, c) => .ok (n, (buf.drop 1).drop c)
          else
            match decodeInteger buf 4 with
            | none => .error .integer
            | some (idx, c1) =>
              match resolveIndex st idx with
              | .error e => .error e
              | .ok nv => .ok (nv.1, buf.drop c1)
        match nameStep with
        | .error e => .error e
        | .ok (name, buf') =>
          match decodeString buf' with
          | none => .error .utf8
          | some (val, c2) =>
            match hpackDecodeLoop fuel st (buf'.drop c2) with
            | .error e => .error e
            | .ok hs => .ok ((name, val) :: hs)

/-- `HpackDecoder::decode` from a fresh decoder. -/
def hpackDecode (buf : List Nat) : Except HpackErr (List (String × String)) :=
  hpackDecodeLoop (buf.length + 1) HpackTable.new buf

/-! ## ChaCha20-Poly1305 AEAD (`selenia_core/src/crypto/{chacha20,poly1305,aead}.rs`) -/

/-- `u32::from_le_bytes` over 4 bytes at offset `i`. -/
def le32at (l : List Nat) (i : Nat) : Nat :=
  l.getD i 0 + l.getD (i + 1) 0 * 2 ^ 8 + l.getD (i + 2) 0 * 2 ^ 16 +
    l.getD (i + 3) 0 * 2 ^ 24

/-- `rotl` on u32. -/
def rotl32 (x n : Nat) : Nat :=
  x % 2 ^ 32 * 2 ^ n % 2 ^ 32 ||| x % 2 ^ 32 / 2 ^ (32 - n)

/-- `quarter` (chacha20.rs) on a 16-word state. -/
def qround (st : List Nat) (a b c d : Nat) : List Nat :=
  let sa := (st.getD a 0 + st.getD b 0) % 2 ^ 32
  let sd := rotl32 (st.getD d 0 ^^^ sa) 16
  let sc := (st.getD c 0 + sd) % 2 ^ 32
  let sb := rotl32 (st.getD b 0 ^^^ sc) 12
  let sa2 := (sa + sb) % 2 ^ 32
  let sd2 := rotl32 (sd ^^^ sa2) 8
  let sc2 := (sc + sd2) % 2 ^ 32
  let sb2 := rotl32 (sb ^^^ sc2) 7
  ((st.set a sa2).set b sb2 |>.set c sc2).set d sd2

/-- One double round: four column then four diagonal quarter rounds. -/
def doubleRound (st : List Nat) : List Nat :=
  let st := qround st 0 4 8 12
  let st := qround st 1 5 9 13
  let st := qround st 2 6 10 14
  let st := qround st 3 7 11 15
  let st := qround st 0 5 10 15
  let st := qround st 1 6 11 12
  let st := qround st 2 7 8 13
  qround st 3 4 9 14

/-- `chacha20_block`: 64 keystream bytes for one counter value. -/
def chachaBlock (key nonce : List Nat) (counter : Nat) : List Nat :=
  let st0 := [0x61707865, 0x3320646e, 0x79622d32, 0x6b206574] ++
    (List.range 8).map (fun i => le32at key (i * 4)) ++
    [counter % 2 ^ 32, le32at nonce 0, le32at nonce 4, le32at nonce 8]
  let st := (List.range 10).foldl (fun s _ => doubleRound s) st0
  ((List.range 16).map (fun i => (st.getD i 0 + st0.getD i 0) % 2 ^ 32)).flatMap
    (fun w => [w % 256, w / 2 ^ 8 % 256, w / 2 ^ 16 % 256, w / 2 ^ 24 % 256])

/-- The byte-indexed XOR of `chacha20_xor_in_place` (`ks` is the
keystream byte at absolute offset `i`). -/
def chachaXorAux (ks : Nat → Nat) : Nat → List Nat → List Nat
  | _, [] => []
  | i, b :: rest => (b ^^^ ks i) :: chachaXorAux ks (i + 1) rest

/-- `chacha20_xor_in_place`: byte `i` is XORed with byte `i % 64` of the
block for counter `counter + i / 64` (the Rust counter `wrapping_add`s
once per 64-byte chunk). -/
def chachaXor (key nonce : List Nat) (counter : Nat) (data : List Nat) : List Nat :=
  chachaXorAux
    (fun i => (chachaBlock key nonce ((counter + i / 64) % 2 ^ 32)).getD (i % 64) 0)
    0 data

/-- The 17-byte Poly1305 block: up to 16 message bytes, a 1 byte, zero
padding. -/
def polyBlock (chunk : List Nat) : List Nat :=
  chunk ++ 1 :: List.replicate (16 - chunk.length) 0

/-- The five 26-bit limbs `t` of a 17-byte block (poly1305.rs). -/
def polyT (block : List Nat) : List Nat :=
  [le32at block 0 &&& 0x3ffffff,
   le32at block 3 / 2 ^ 2 &&& 0x3ffffff,
   le32at block 6 / 2 ^ 4 &&& 0x3ffffff,
   le32at block 9 / 2 ^ 6 &&& 0x3ffffff,
   le32at block 12 / 2 ^ 8 ||| block.getD 16 0 % 2 ^ 32 * 2 ^ 16]

/-- `acc += t` with 26-bit carries, then `acc[0] += carry * 5`
(the `as u32` truncations written as `% 2 ^ 32`). -/
def polyAccAdd (acc t : List Nat) : List Nat :=
  let c0 := acc.getD 0 0 + t.getD 0 0
  let a0 := c0 % 2 ^ 32 &&& 0x3ffffff
  let c1 := c0 / 2 ^ 26 + acc.getD 1 0 + t.getD 1 0
  let a1 := c1 % 2 ^ 32 &&& 0x3ffffff
  let c2 := c1 / 2 ^ 26 + acc.getD 2 0 + t.getD 2 0
  let a2 := c2 % 2 ^ 32 &&& 0x3ffffff
  let c3 := c2 / 2 ^ 26 + acc.getD 3 0 + t.getD 3 0
  let a3 := c3 % 2 ^ 32 &&& 0x3ffffff
  let c4 := c3 / 2 ^ 26 + acc.getD 4 0 + t.getD 4 0
  let a4 := c4 % 2 ^ 32 &&& 0x3ffffff
  [(a0 + c4 / 2 ^ 26 % 2 ^ 32 * 5) % 2 ^ 32, a1, a2, a3, a4]

/-- `acc = acc * r` with the source's cyclic product
`prod[(i+j) % 5] += acc[i] * r[j]` followed by its partial reduction. -/
def polyMulR (acc r : List Nat) : List Nat :=
  let a := fun i => acc.getD i 0
  let g := fun j => r.getD j 0
  let p0 := (a 0 * g 0 + a 1 * g 4 + a 2 * g 3 + a 3 * g 2 + a 4 * g 1) % 2 ^ 64
  let p1 := (a 0 * g 1 + a 1 * g 0 + a 2 * g 4 + a 3 * g 3 + a 4 * g 2) % 2 ^ 64
  let p2 := (a 0 * g 2 + a 1 * g 1 + a 2 * g 0 + a 3 * g 4 + a 4 * g 3) % 2 ^ 64
  let p3 := (a 0 * g 3 + a 1 * g 2 + a 2 * g 1 + a 3 * g 0 + a 4 * g 4) % 2 ^ 64
  let p4 := (a 0 * g 4 + a 1 * g 3 + a 2 * g 2 + a 3 * g 1 + a 4 * g 0) % 2 ^ 64
  let q0 := p0
  let b0 := q0 &&& 0x3ffffff
  let q1 := (p1 + q0 / 2 ^ 26) % 2 ^ 64
  let b1 := q1 &&& 0x3ffffff
  let q2 := (p2 + q1 / 2 ^ 26) % 2 ^ 64
  let b2 := q2 &&& 0x3ffffff
  let q3 := (p3 + q2 / 2 ^ 26) % 2 ^ 64
  let b3 := q3 &&& 0x3ffffff
  let q4 := (p4 + q3 / 2 ^ 26) % 2 ^ 64
  let b4 := q4 &&& 0x3ffffff
  [(b0 + q4 / 2 ^ 26 % 2 ^ 32 * 5) % 2 ^ 32, b1, b2, b3, b4]

/-- The block loop of `poly1305_tag` (each iteration consumes at least
one byte, so `msg.length + 1` fuel suffices). -/
def polyLoop (r : List Nat) : Nat → List Nat → List Nat → List Nat
  | 0, acc, _ => acc
  | fuel + 1, acc, msg =>
    match msg with
    | [] => acc
    | _ =>
      let block := polyBlock (msg.take 16)
      let acc := polyMulR (polyAccAdd acc (polyT block)) r
      polyLoop r fuel acc (msg.drop 16)

/-- `poly1305_tag` (poly1305.rs): clamp `r`, run the block loop, final
26-bit carry propagation, the constant-time conditional subtraction of p,
serialization, and the final addition of `s = key[16..32]`. -/
def poly1305Tag (msg key : List Nat) : List Nat :=
  let r := [le32at key 0 &&& 0x3ffffff,
            le32at key 3 / 2 ^ 2 &&& 0x3ffff03,
            le32at key 6 / 2 ^ 4 &&& 0x3ffc0ff,
            le32at key 9 / 2 ^ 6 &&& 0x3f03fff,
            le32at key 12 / 2 ^ 8 &&& 0x00fffff]
  let acc := polyLoop r (msg.length + 1) [0, 0, 0, 0, 0] msg
  let a0 := acc.getD 0 0
  let a1 := acc.getD 1 0 + a0 / 2 ^ 26
  let a0 := a0 &&& 0x3ffffff
  let a2 := acc.getD 2 0 + a1 / 2 ^ 26
  let a1 := a1 &&& 0x3ffffff
  let a3 := acc.getD 3 0 + a2 / 2 ^ 26
  let a2 := a2 &&& 0x3ffffff
  let a4 := acc.getD 4 0 + a3 / 2 ^ 26
  let a3 := a3 &&& 0x3ffffff
  let a0 := (a0 + a4 / 2 ^ 26 % 2 ^ 32 * 5) % 2 ^ 32
  let a4 := a4 &&& 0x3ffffff
  let s0 := (a0 + 5) % 2 ^ 32
  let carry := s0 / 2 ^ 26
  let s0 := s0 &&& 0x3ffffff
  let s1 := (a1 + carry) % 2 ^ 32
  let carry := s1 / 2 ^ 26
  let s1 := s1 &&& 0x3ffffff
  let s2 := (a2 + carry) % 2 ^ 32
  let carry := s2 / 2 ^ 26
  let s2 := s2 &&& 0x3ffffff
  let s3 := (a3 + carry) % 2 ^ 32
  let carry := s3 / 2 ^ 26
  let s3 := s3 &&& 0x3ffffff
  let s4 := (a4 + carry) % 2 ^ 32
  let carry := s4 / 2 ^ 26
  let s4 := s4 &&& 0x3ffffff
  let mask := ((carry ^^^ 1) + 2 ^ 32 - 1) % 2 ^ 32
  let f0 := a0 &&& not32 mask ||| s0 &&& mask
  let f1 := a1 &&& not32 mask ||| s1 &&& mask
  let f2 := a2 &&& not32 mask ||| s2 &&& mask
  let f3 := a3 &&& not32 mask ||| s3 &&& mask
  let f4 := a4 &&& not32 mask ||| s4 &&& mask
  let t0 := (f0 ||| f1 * 2 ^ 26 % 2 ^ 32) % 2 ^ 32
  let t1 := (f1 / 2 ^ 6 ||| f2 * 2 ^ 20 % 2 ^ 32) % 2 ^ 32
  let t2 := (f2 / 2 ^ 12 ||| f3 * 2 ^ 14 % 2 ^ 32) % 2 ^ 32
  let t3 := (f3 / 2 ^ 18 ||| f4 * 2 ^ 8 % 2 ^ 32) % 2 ^ 32
  let raw := [t0 % 256, t0 / 2 ^ 8 % 256, t0 / 2 ^ 16 % 256, t0 / 2 ^ 24 % 256,
              t1 % 256, t1 / 2 ^ 8 % 256, t1 / 2 ^ 16 % 256, t1 / 2 ^ 24 % 256,
              t2 % 256, t2 / 2 ^ 8 % 256, t2 / 2 ^ 16 % 256, t2 / 2 ^ 24 % 256,
              t3 % 256, t3 / 2 ^ 8 % 256, t3 / 2 ^ 16 % 256, t3 / 2 ^ 24 % 256]
  let withS := raw.foldl (fun st b =>
    match st with
    | (out, i, carry) =>
      let sum := b + key.getD (16 + i) 0 + carry
      (out ++ [sum % 256], i + 1, sum / 256)) (([] : List Nat), 0, 0)
  withS.1

/-- `pad16` applied after appending a section to the MAC input. -/
def pad16To (l : List Nat) : List Nat :=
  if l.length % 16 = 0 then l else l ++ List.replicate (16 - l.length % 16) 0

/-- 8 little-endian bytes of a u64. -/
def le64 (n : Nat) : List Nat :=
  [n % 256, n / 2 ^ 8 % 256, n / 2 ^ 16 % 256, n / 2 ^ 24 % 256,
   n / 2 ^ 32 % 256, n / 2 ^ 40 % 256, n / 2 ^ 48 % 256, n / 2 ^ 56 % 256]

/-- The RFC 8439 MAC input `AAD ‖ pad16 ‖ CT ‖ pad16 ‖ len_aad ‖ len_ct`
built by both `seal` and `open`. -/
def macInput (aad ct : List Nat) : List Nat :=
  pad16To aad ++ pad16To ct ++ le64 (aad.length % 2 ^ 64) ++
    le64 (ct.length % 2 ^ 64)

/-- The Poly1305 key: the first 32 keystream bytes at counter 0 (XOR of
the keystream into a zero block). -/
def polyKeyOf (key nonce : List Nat) : List Nat :=
  (chachaXor key nonce 0 (List.replicate 64 0)).take 32

/-- `constant_time_eq` (aead.rs). -/
def constantTimeEq (a b : List Nat) : Bool :=
  if a.length ≠ b.length then false
  else ((a.zip b).foldl (fun d p => d ||| (p.1 ^^^ p.2)) 0) == 0

/-- `seal` (aead.rs): returns (ciphertext, tag). -/
def aeadSeal (key nonce aad pt : List Nat) : List Nat × List Nat :=
  let ct := chachaXor key nonce 1 pt
  (ct, poly1305Tag (macInput aad ct) (polyKeyOf key nonce))

/-- `open` (aead.rs): returns (success, buffer) — the decrypted plaintext
on success, the ciphertext untouched on tag mismatch. -/
def aeadOpen (key nonce aad ct tag : List Nat) : Bool × List Nat :=
  let expected := poly1305Tag (macInput aad ct) (polyKeyOf key nonce)
  if constantTimeEq tag expected then (true, chachaXor key nonce 1 ct)
  else (false, ct)

end SWS

namespace SWS

/-! ## Theorems -/

/-- C4 counterexample.  The claim declares every combination outside its
five listed transitions a connection error that emits GOAWAY and closes
the connection.  The code's `on_frame` has no error or GOAWAY path at all:
on HalfClosedLocal + RST_STREAM it performs a sixth, unlisted state
transition to Closed, and on Idle + DATA it completes normally leaving the
state Idle — in both cases `claimedTransition` demands an error. -/
theorem onFrame_counterexample :
    claimedTransition .halfClosedLocal .rstStream 0 = none ∧
    onFrame .halfClosedLocal .rstStream 0 = .closed ∧
    claimedTransition .idle .data 0 = none ∧
    onFrame .idle .data 0 = .idle := by
  refine ⟨rfl, rfl, rfl, rfl⟩

/-- C4 (amended): on each inbound frame the stream state machine makes
exactly the transitions Idle + HEADERS|PRIORITY ⇒ Open,
Idle + PUSH_PROMISE ⇒ ReservedRemote, Open + DATA(END_STREAM) ⇒
HalfClosedRemote, Open + RST_STREAM ⇒ Closed, HalfClosedRemote +
RST_STREAM ⇒ Closed, and HalfClosedLocal + RST_STREAM ⇒ Closed; every
other state/frame combination leaves the state unchanged (no GOAWAY is
emitted and the connection stays up). -/
theorem onFrame_eq_amendedTransition :
    ∀ (s : StreamState) (t : FrameType) (flags : Nat),
      onFrame s t flags = amendedTransition s t flags := by
  intro s t flags
  cases s <;> cases t <;> rfl

/-- C10: serializing any frame header with length below 2^24, stream id
below 2^31, flags a byte, and appending a payload of exactly `length`
bytes, then parsing, returns the identical header and the total frame
length 9 + length. -/
theorem parseFrame_serialize (fh : FrameHeader) (payload : List Nat)
    (hlen : fh.length < 2 ^ 24) (hsid : fh.streamId < 2 ^ 31)
    (hflags : fh.flags < 256) (hp : payload.length = fh.length) :
    parseFrame (fh.serialize ++ payload) = some (fh, 9 + fh.length) := by
  obtain ⟨len, t, flags, sid⟩ := fh
  simp only [FrameHeader.serialize] at *
  have hlen32 : len % 2 ^ 32 = len := Nat.mod_eq_of_lt (by omega)
  have hsid32 : sid % 2 ^ 32 % 2 ^ 31 = sid := by
    rw [Nat.mod_eq_of_lt (by omega), Nat.mod_eq_of_lt (by omega)]
  simp only [hlen32, hsid32, parseFrame, List.cons_append, List.nil_append,
    List.length_cons, List.getD_cons_zero, List.getD_cons_succ]
  have h9 : ¬ (payload.length + 8 + 1 < 9) := by omega
  rw [if_neg h9]
  have hrec : len / 2 ^ 16 % 256 * 2 ^ 16 + len / 2 ^ 8 % 256 * 2 ^ 8 + len % 256 = len := by
    omega
  rw [hrec]
  have h2 : ¬ (payload.length + 8 + 1 < 9 + len) := by omega
  rw [if_neg h2]
  have ht : FrameType.fromByte t.toByte = some t := by cases t <;> rfl
  rw [ht]
  have hflagsm : flags % 256 = flags := Nat.mod_eq_of_lt hflags
  simp only [hflagsm, Option.some.injEq, Prod.mk.injEq, FrameHeader.mk.injEq]
  refine ⟨⟨trivial, trivial, trivial, ?_⟩, trivial⟩
  omega

/-- C10 witness: a concrete HEADERS frame header with a 3-byte payload. -/
theorem parseFrame_serialize_witness :
    parseFrame (FrameHeader.serialize ⟨3, .headers, 5, 7⟩ ++ [1, 2, 3]) =
      some (⟨3, .headers, 5, 7⟩, 12) :=
  parseFrame_serialize ⟨3, .headers, 5, 7⟩ [1, 2, 3]
    (by norm_num) (by norm_num) (by norm_num) rfl

/-- C1: the code at the failing input.  The 24-byte stream
`GET / HTTP/1.1 LF Host: x LF LF` is a complete valid request under the
claim's format (empty body, header section terminated by LFLF), yet the
streaming parser reports need-more-data and never reaches Done — even
when `advance` is called again on the same complete buffer — because
`find_double_crlf` compares each 4-byte window against `\r\n\r\n` or four
LF bytes and so can never match a bare LFLF blank line.  The
CRLF-terminated equivalent parses to Done with `consumed` equal to its
serialized length, 27. -/
theorem parser_lflf_never_done :
    (Http1Parser.new.advance (strBytes "GET / HTTP/1.1\nHost: x\n\n")).1 =
      .ok none ∧
    ((Http1Parser.new.advance (strBytes "GET / HTTP/1.1\nHost: x\n\n")).2.advance
        (strBytes "GET / HTTP/1.1\nHost: x\n\n")).1 = .ok none ∧
    (Http1Parser.new.advance (strBytes "GET / HTTP/1.1\r\nHost: x\r\n\r\n")).1 =
      .ok (some (⟨strBytes "GET", strBytes "/", strBytes "HTTP/1.1",
        [(strBytes "Host", strBytes "x")], []⟩, 27)) := by
  refine ⟨rfl, rfl, rfl⟩

lemma constantTimeEq_self (l : List Nat) : constantTimeEq l l = true := by
  have hfold : ∀ (l : List Nat) (d : Nat),
      (l.zip l).foldl (fun d p => d ||| (p.1 ^^^ p.2)) d = d := by
    intro l
    induction l with
    | nil => intro d; rfl
    | cons x rest ih =>
      intro d
      simp only [List.zip_cons_cons, List.foldl_cons, Nat.xor_self,
        Nat.or_zero]
      exact ih d
  simp [constantTimeEq, hfold]

lemma chachaXorAux_involutive (ks : Nat → Nat) (l : List Nat) : ∀ (i : Nat),
    chachaXorAux ks i (chachaXorAux ks i l) = l := by
  induction l with
  | nil => intro i; rfl
  | cons b rest ih =>
    intro i
    simp only [chachaXorAux, Nat.xor_assoc, Nat.xor_self, Nat.xor_zero]
    rw [ih (i + 1)]

lemma chachaXor_involutive (key nonce : List Nat) (counter : Nat)
    (data : List Nat) :
    chachaXor key nonce counter (chachaXor key nonce counter data) = data :=
  chachaXorAux_involutive _ data 0

/-- The functional-correctness half of the AEAD claim, as a development
lemma: for every key, nonce, AAD and plaintext, `open` accepts the output
of `seal` (the recomputed tag equals the sealed tag, and the second
ChaCha20 XOR pass restores the plaintext).  The rejection of modified
inputs is a Poly1305 forgery-resistance property and is not derivable in
this development. -/
lemma aeadOpen_aeadSeal (key nonce aad pt : List Nat) :
    aeadOpen key nonce aad (aeadSeal key nonce aad pt).1
      (aeadSeal key nonce aad pt).2 = (true, pt) := by
  simp only [aeadSeal, aeadOpen, constantTimeEq_self, if_true]
  rw [chachaXor_involutive]

/-- C2: the code at the failing input.  Encoding
`[("zz","a"), ("zz","b")]` (ASCII, entry sizes 35 ≪ 4096) emits, for the
second header, a literal-with-incremental-indexing whose name index is 1
(byte 0x41): the encoder found `zz` at dynamic-table position 0 but added
only `idx + 1`, forgetting the 61-entry static-table offset that the
exact-match branch adds.  A fresh decoder resolves index 1 to the static
entry `:authority`, so decode(encode(H)) = `[("zz","a"),
(":authority","b")]` ≠ H.  The third conjunct shows the spec's own
three-header example also fails to round-trip: `huffman_encode` packs its
final partial byte by shifting `bits` (instead of `8 - bits`) positions,
corrupting the value string, and the decoder rejects it. -/
theorem hpack_decode_encode_mismatch :
    hpackDecode (hpackEncode [("zz", "a"), ("zz", "b")]) =
      .ok [("zz", "a"), (":authority", "b")] ∧
    hpackEncode [("zz", "a"), ("zz", "b")] =
      [0x40, 0x02, 0x7a, 0x7a, 0x01, 0x61, 0x41, 0x01, 0x62] ∧
    hpackDecode (hpackEncode [(":method", "GET"), (":path", "/"),
      ("user-agent", "test")]) = .error .utf8 := by
  refine ⟨rfl, by decide, rfl⟩

/-- `rbac::validate` allows everything when no policies are loaded. -/
lemma rbacValidate_nil (path : List Nat) (auth : Option (List Nat)) :
    rbacValidate [] path auth = true := rfl

/-- C6: the code at the failing input.  A GET for the existing 13-byte
file `/index.html` with `Accept-Encoding: gzip` is answered with a
`Content-Encoding: gzip` header, but the body is the raw file bytes —
`handle_request` never calls the compress module, so the body is not a
gzip stream (it does not even start with the gzip magic `1f 8b`), and
Content-Length is the uncompressed length 13. -/
theorem gzip_header_identity_body :
    handleRequest fsHello [] trFix "" "HTTP/1.1" "GET" "/index.html"
      [("Host", "x"), ("Accept-Encoding", "gzip")] cfgFix true "tp" =
      some { status := 200
             statusLine := "HTTP/1.1 200 OK"
             headerLines := ["Content-Type: text/html", "Connection: keep-alive",
               "Keep-Alive: timeout=30, max=100", "ETag: \"e489341b\"",
               "Content-Length: 13", "Content-Encoding: gzip", "tp"]
             body := strBytes "hello, world\n" } ∧
    (strBytes "hello, world\n").take 2 ≠ [0x1f, 0x8b] := by
  exact ⟨by decide, by decide⟩

/-- C7 counterexample.  The request path `/a?..` contains `..`, yet
`sanitize_path` strips the query string before its `..` test and returns
`root/a`, not the `/invalid` sentinel the claim requires for every
`..`-containing request path. -/
theorem sanitize_query_dotdot_counterexample :
    strContains "/a?.." ".." = true ∧
    sanitizePath fsHello "root" "/a?.." = "root/a" ∧
    sanitizePath fsHello "root" "/a?.." ≠ "/invalid" := by
  exact ⟨by decide, by decide, by decide⟩

/-- C7 (amended): when the query/fragment-stripped, slash-trimmed path
component still contains `..`, `sanitize_path` returns the `/invalid`
sentinel under every root, and a GET for it that passes the WAF (with no
RBAC policies loaded, a path other than `/metrics`, and no file at the
sentinel path) is answered 404 with the localized not-found body. -/
theorem sanitize_dotdot_yields_404 (fs : FsModel)
    (translate : String → String) (metricsBody : String)
    (version path : String) (headers : List (String × String))
    (cfg : SrvConfig) (keepAlive : Bool) (tpLine : String)
    (hdot : strContains (strippedPathComponent path) ".." = true)
    (hwaf : wafEvaluate path headers = true)
    (hmet : path ≠ "/metrics")
    (hinv : fs.files "/invalid" = none) :
    (∀ rootDir, sanitizePath fs rootDir path = "/invalid") ∧
    handleRequest fs [] translate metricsBody version "GET" path headers
      cfg keepAlive tpLine =
      some (respondSimple version 404 (translate "http.not_found") keepAlive
        cfg.tls tpLine) := by
  have hsan : ∀ rootDir, sanitizePath fs rootDir path = "/invalid" := by
    intro rootDir
    simp [sanitizePath, hdot]
  refine ⟨hsan, ?_⟩
  simp only [handleRequest, hwaf, Bool.true_eq_false, not_false_eq_true,
    not_true_eq_false, if_false, ite_false, ite_true, rbacValidate_nil,
    hsan, hinv]
  simp [hmet]

/-- C7 witness: the path `/a..b` at a concrete file system. -/
theorem sanitize_dotdot_yields_404_witness :
    (∀ rootDir, sanitizePath fsHello rootDir "/a..b" = "/invalid") ∧
    handleRequest fsHello [] trFix "" "HTTP/1.1" "GET" "/a..b" [] cfgFix
      true "tp" =
      some (respondSimple "HTTP/1.1" 404 (trFix "http.not_found") true
        cfgFix.tls "tp") :=
  sanitize_dotdot_yields_404 fsHello trFix "" "HTTP/1.1" "/a..b" [] cfgFix
    true "tp" (by decide) (by decide) (by decide) (by decide)

/-- C8 counterexample.  For a file of size 0 and mtime 5 s the first four
digest bytes of SHA-256("0:5") are cc 0c 07 a7; hex encoding gives
"cc0c07a7", but the code formats each byte with `{:x}` (no zero padding)
and produces "ccc7a7". -/
theorem etag_hex_counterexample :
    etagString 0 5 = "\"ccc7a7\"" ∧
    claimEtagString 0 5 = "\"cc0c07a7\"" ∧
    etagString 0 5 ≠ claimEtagString 0 5 := by
  exact ⟨by decide, by decide, by decide⟩

/-- C8 (amended): the served ETag is the first 4 bytes of
SHA-256("size:mtime_secs") with each byte written in minimal-width
lowercase hex (Rust `{:x}`, no zero padding), wrapped in double quotes;
every GET/HEAD request carrying an If-None-Match header equal to this
string is answered 304 with an empty body, and otherwise (with no Range
header applied) the 200 response carries exactly this ETag header. -/
theorem etag_if_none_match_304 (fs : FsModel)
    (translate : String → String) (metricsBody : String)
    (version method path : String) (headers : List (String × String))
    (cfg : SrvConfig) (keepAlive : Bool) (tpLine : String)
    (content : List Nat) (mtime : Nat)
    (hwaf : wafEvaluate path headers = true)
    (hmethod : method = "GET" ∨ method = "HEAD")
    (hmet : path ≠ "/metrics")
    (hvh : cfg.vhosts = [])
    (hfile : fs.files (sanitizePath fs cfg.rootDir path) =
      some (content, mtime)) :
    (headers.any (fun kv => eqICStr kv.1 "If-None-Match" &&
        kv.2 == etagString content.length mtime) = true →
      handleRequest fs [] translate metricsBody version method path headers
        cfg keepAlive tpLine =
        some (respondSimple version 304 "" keepAlive cfg.tls tpLine)) ∧
    (headers.any (fun kv => eqICStr kv.1 "If-None-Match" &&
        kv.2 == etagString content.length mtime) = false →
      rangeFold headers content.length = none →
      ∃ r, handleRequest fs [] translate metricsBody version method path
          headers cfg keepAlive tpLine = some r ∧ r.status = 200 ∧
        ("ETag: " ++ etagString content.length mtime) ∈ r.headerLines) := by
  have hm : ¬ (method ≠ "GET" ∧ method ≠ "HEAD") := by
    rcases hmethod with h | h <;> simp [h]
  have hbindnone : ∀ (o : Option (String × String)),
      (o.bind (fun _ => (none : Option VHostCfg))) = none := by
    intro o
    cases o <;> rfl
  constructor
  · intro hinm
    simp only [handleRequest, hwaf, Bool.true_eq_false, not_false_eq_true,
      not_true_eq_false, if_false, ite_false, ite_true, rbacValidate_nil, hm,
      hvh, List.find?_nil, hbindnone, hfile, hinm, hmet]
  · intro hinm hnr
    simp only [handleRequest, hwaf, Bool.true_eq_false, not_false_eq_true,
      not_true_eq_false, if_false, ite_false, ite_true, rbacValidate_nil, hm,
      hvh, List.find?_nil, hbindnone, hfile, hinm, hmet, hnr,
      Bool.false_eq_true]
    refine ⟨_, rfl, rfl, ?_⟩
    simp

/-- C8 witness: a matching If-None-Match on the 13-byte fixture file
yields the concrete 304 response. -/
theorem etag_if_none_match_304_witness :
    handleRequest fsHello [] trFix "" "HTTP/1.1" "GET" "/index.html"
      [("If-None-Match", etagString 13 5)] cfgFix true "tp" =
      some (respondSimple "HTTP/1.1" 304 "" true cfgFix.tls "tp") :=
  (etag_if_none_match_304 fsHello trFix "" "HTTP/1.1" "GET" "/index.html"
    [("If-None-Match", etagString 13 5)] cfgFix true "tp"
    (strBytes "hello, world\n") 5
    (by decide) (Or.inl rfl) (by decide) rfl (by decide)).1 (by decide)

/-- C9: the code at the failing input.  For a 10-byte file, the suffix
range `bytes=-11` is not rejected: the code computes
`start = total_len - N` in u64 arithmetic, which underflows to 2^64 - 1
(debug builds panic at the subtraction itself), and the subsequent body
slice `full_body[start ..= 9]` panics, so no response is produced at all
instead of the claimed fall-through to 200.  A valid range on the same
file yields the normal 206. -/
theorem range_suffix_underflow_panic :
    rangeFold [("Range", "bytes=-11")] 10 = some (2 ^ 64 - 1, 9) ∧
    handleRequest fsBin10 [] trFix "" "HTTP/1.1" "GET" "/a.bin"
      [("Range", "bytes=-11")] cfgFix true "tp" = none ∧
    (∃ r, handleRequest fsBin10 [] trFix "" "HTTP/1.1" "GET" "/a.bin"
        [("Range", "bytes=0-3")] cfgFix true "tp" = some r ∧
      r.status = 206 ∧ "Content-Range: bytes 0-3/10" ∈ r.headerLines ∧
      r.body = strBytes "0123") := by
  refine ⟨by decide, by decide, ?_⟩
  refine ⟨{ status := 206
            statusLine := "HTTP/1.1 206 OK"
            headerLines := ["Content-Type: application/octet-stream",
              "Content-Range: bytes 0-3/10", "Connection: keep-alive",
              "Keep-Alive: timeout=30, max=100", "ETag: \"b182de4c\"",
              "Content-Length: 4", "tp"]
            body := strBytes "0123" }, by decide, by decide, by decide, by decide⟩

/-! ### Flow-control accounting lemmas (C5) -/

lemma lookup_setAssoc_self {α : Type} (l : List (Nat × α)) (k : Nat) (v : α) :
    (setAssoc l k v).lookup k = some v := by
  induction l with
  | nil => simp [setAssoc, List.lookup]
  | cons hd tl ih =>
    obtain ⟨k', v'⟩ := hd
    by_cases h : k' = k
    · simp [setAssoc, h, List.lookup]
    · simp only [setAssoc, if_neg h, List.lookup]
      rw [show (k == k') = false by simp [Ne.symm h]]
      exact ih

lemma lookup_setAssoc_ne {α : Type} (l : List (Nat × α)) (k j : Nat) (v : α)
    (h : j ≠ k) : (setAssoc l k v).lookup j = l.lookup j := by
  induction l with
  | nil =>
    simp only [setAssoc, List.lookup]
    rw [show (j == k) = false by simp [h]]
  | cons hd tl ih =>
    obtain ⟨k', v'⟩ := hd
    by_cases hk : k' = k
    · subst hk
      simp only [setAssoc, if_pos rfl, List.lookup]
      rw [show (j == k') = false by simp [h]]
    · simp only [setAssoc, if_neg hk, List.lookup]
      cases hjk : (j == k') <;> simp [ih]

lemma windowFor_fst (fc : FlowControl) (id : Nat) :
    (fc.windowFor id).1 = fc.winOf id := by
  unfold FlowControl.windowFor FlowControl.winOf
  cases h : fc.streamWindows.lookup id <;> simp [h]

lemma windowFor_conn (fc : FlowControl) (id : Nat) :
    ((fc.windowFor id).2).connWindow = fc.connWindow := by
  unfold FlowControl.windowFor
  cases h : fc.streamWindows.lookup id <;> simp [h]

lemma windowFor_winOf (fc : FlowControl) (id j : Nat) :
    ((fc.windowFor id).2).winOf j = fc.winOf j := by
  unfold FlowControl.windowFor FlowControl.winOf
  cases h : fc.streamWindows.lookup id
  · by_cases hj : j = id
    · subst hj
      simp [h, lookup_setAssoc_self]
    · simp [h, lookup_setAssoc_ne _ _ _ _ hj]
  · simp [h]

lemma tryReserve_false (fc fc' : FlowControl) (id : Nat) (len : Int)
    (h : fc.tryReserve id len = (false, fc')) :
    fc'.connWindow = fc.connWindow ∧ ∀ j, fc'.winOf j = fc.winOf j := by
  unfold FlowControl.tryReserve at h
  by_cases hc : ((fc.windowFor id).2).connWindow < len ∨ (fc.windowFor id).1 < len
  · simp only [if_pos hc] at h
    obtain ⟨rfl⟩ : fc' = (fc.windowFor id).2 := by
      cases h; rfl
    exact ⟨windowFor_conn fc id, windowFor_winOf fc id⟩
  · simp only [if_neg hc] at h
    cases h

lemma tryReserve_true (fc fc' : FlowControl) (id : Nat) (len : Int)
    (h : fc.tryReserve id len = (true, fc')) :
    len ≤ fc.connWindow ∧ len ≤ fc.winOf id ∧
    fc'.connWindow = fc.connWindow - len ∧
    fc'.winOf id = fc.winOf id - len ∧
    ∀ j, j ≠ id → fc'.winOf j = fc.winOf j := by
  unfold FlowControl.tryReserve at h
  by_cases hc : ((fc.windowFor id).2).connWindow < len ∨ (fc.windowFor id).1 < len
  · simp only [if_pos hc] at h
    cases h
  · simp only [if_neg hc] at h
    push_neg at hc
    obtain ⟨hconn, hsw⟩ := hc
    rw [windowFor_conn] at hconn
    rw [windowFor_fst] at hsw
    obtain ⟨rfl⟩ : fc' = ⟨((fc.windowFor id).2).connWindow - len,
        setAssoc ((fc.windowFor id).2).streamWindows id ((fc.windowFor id).1 - len)⟩ := by
      cases h; rfl
    refine ⟨hconn, hsw, by simp [windowFor_conn], ?_, ?_⟩
    · simp only [FlowControl.winOf, lookup_setAssoc_self, Option.getD_some]
      rw [windowFor_fst]
      rfl
    · intro j hj
      have : FlowControl.winOf ⟨((fc.windowFor id).2).connWindow - len,
          setAssoc ((fc.windowFor id).2).streamWindows id ((fc.windowFor id).1 - len)⟩ j =
          ((fc.windowFor id).2).winOf j := by
        simp [FlowControl.winOf, lookup_setAssoc_ne _ _ _ _ hj]
      rw [this, windowFor_winOf]

lemma toI32_of_lt (n : Nat) (h : n < 2 ^ 31) : toI32 n = n := by
  unfold toI32
  rw [Nat.mod_eq_of_lt (show n < 2 ^ 32 by omega), if_pos h]

/-- One scheduler call either admits nothing and leaves every window
unchanged, or is a `next_stream` call that admits one frame after
`try_reserve` debited both windows. -/
lemma schedStep_spec (s : Scheduler) (op : SchedOp)
    (hop : ∀ fs, op = .nextStream fs → fs < 2 ^ 31) :
    ((schedStep s op).2 = [] ∧
     (schedStep s op).1.fc.connWindow = s.fc.connWindow ∧
     (∀ j, (schedStep s op).1.fc.winOf j = s.fc.winOf j)) ∨
    (∃ id fs, (schedStep s op).2 = [(id, fs)] ∧
     (fs : Int) ≤ s.fc.connWindow ∧ (fs : Int) ≤ s.fc.winOf id ∧
     (schedStep s op).1.fc.connWindow = s.fc.connWindow - fs ∧
     (schedStep s op).1.fc.winOf id = s.fc.winOf id - fs ∧
     (∀ j, j ≠ id → (schedStep s op).1.fc.winOf j = s.fc.winOf j)) := by
  cases op with
  | queueData id bytes =>
    left
    refine ⟨rfl, rfl, fun j => rfl⟩
  | nextStream fs =>
    have hfs : fs < 2 ^ 31 := hop fs rfl
    cases hpop : s.ptree.popNextStream with
    | none =>
      left
      have hstep : schedStep s (SchedOp.nextStream fs) = (s, []) := by
        simp [schedStep, Scheduler.nextStream, hpop]
      rw [hstep]
      exact ⟨rfl, rfl, fun j => rfl⟩
    | some id =>
      rcases hres : s.fc.tryReserve id (toI32 fs) with ⟨ok, fc'⟩
      cases ok with
      | false =>
        left
        obtain ⟨hc, hw⟩ := tryReserve_false s.fc fc' id (toI32 fs) hres
        have hstep : schedStep s (SchedOp.nextStream fs) = ({ s with fc := fc' }, []) := by
          simp [schedStep, Scheduler.nextStream, hpop, hres]
        rw [hstep]
        exact ⟨rfl, hc, hw⟩
      | true =>
        right
        obtain ⟨h1, h2, h3, h4, h5⟩ := tryReserve_true s.fc fc' id (toI32 fs) hres
        rw [toI32_of_lt fs hfs] at h1 h2 h3 h4
        have hstep : (schedStep s (SchedOp.nextStream fs)).2 = [(id, fs)] ∧
            (schedStep s (SchedOp.nextStream fs)).1.fc = fc' := by
          cases hlk : s.ptree.nodes.lookup id <;>
            simp [schedStep, Scheduler.nextStream, hpop, hres, hlk]
        refine ⟨id, fs, hstep.1, h1, h2, ?_, ?_, ?_⟩
        · rw [hstep.2]; exact h3
        · rw [hstep.2]; exact h4
        · intro j hj; rw [hstep.2]; exact h5 j hj

lemma admitTotal_cons (p : Nat × Nat) (l : List (Nat × Nat)) :
    admitTotal (p :: l) = p.2 + admitTotal l := by
  simp [admitTotal]

lemma admitOn_cons_self (i fs : Nat) (l : List (Nat × Nat)) :
    admitOn i ((i, fs) :: l) = fs + admitOn i l := by
  simp [admitOn, List.filter_cons]

lemma admitOn_cons_ne (i j fs : Nat) (l : List (Nat × Nat)) (h : j ≠ i) :
    admitOn i ((j, fs) :: l) = admitOn i l := by
  simp [admitOn, List.filter_cons, h]

/-- Window accounting over a WINDOW_UPDATE-free call sequence: the final
connection window is the initial one minus the total admitted, and each
stream window is the initial one minus the bytes admitted on it. -/
lemma runSched_account (ops : List SchedOp) : ∀ (s : Scheduler),
    (∀ fs, SchedOp.nextStream fs ∈ ops → fs < 2 ^ 31) →
    (runSched s ops).fc.connWindow =
      s.fc.connWindow - (admitTotal (schedAdmits s ops) : Int) ∧
    (∀ i, (runSched s ops).fc.winOf i =
      s.fc.winOf i - (admitOn i (schedAdmits s ops) : Int)) := by
  induction ops with
  | nil => intro s _; simp [runSched, schedAdmits, admitTotal, admitOn]
  | cons op rest ih =>
    intro s hops
    have hop : ∀ fs, op = .nextStream fs → fs < 2 ^ 31 := by
      intro fs h; exact hops fs (by simp [h])
    have hrest : ∀ fs, SchedOp.nextStream fs ∈ rest → fs < 2 ^ 31 := by
      intro fs h; exact hops fs (by simp [h])
    obtain ⟨hc, hw⟩ := ih (schedStep s op).1 hrest
    rcases schedStep_spec s op hop with ⟨ha, hsc, hsw⟩ | ⟨id, fs, ha, _, _, hsc, hswid, hswne⟩
    · constructor
      · simp only [runSched, schedAdmits, ha, List.nil_append]
        rw [hc, hsc]
      · intro i
        simp only [runSched, schedAdmits, ha, List.nil_append]
        rw [hw i, hsw i]
    · constructor
      · simp only [runSched, schedAdmits, ha, List.cons_append, List.nil_append]
        rw [hc, hsc, admitTotal_cons]
        push_cast
        ring
      · intro i
        simp only [runSched, schedAdmits, ha, List.cons_append, List.nil_append]
        rw [hw i]
        by_cases hi : i = id
        · subst hi
          rw [hswid, admitOn_cons_self]
          push_cast
          ring
        · rw [hswne i hi, admitOn_cons_ne _ _ _ _ (Ne.symm hi)]

/-- Once some frame has been admitted, the connection window stays
non-negative to the end of the interval. -/
lemma runSched_connWindow_nonneg (ops : List SchedOp) : ∀ (s : Scheduler),
    (∀ fs, SchedOp.nextStream fs ∈ ops → fs < 2 ^ 31) →
    schedAdmits s ops ≠ [] → 0 ≤ (runSched s ops).fc.connWindow := by
  induction ops with
  | nil => intro s _ h; simp [schedAdmits] at h
  | cons op rest ih =>
    intro s hops hne
    have hop : ∀ fs, op = .nextStream fs → fs < 2 ^ 31 := by
      intro fs h; exact hops fs (by simp [h])
    have hrest : ∀ fs, SchedOp.nextStream fs ∈ rest → fs < 2 ^ 31 := by
      intro fs h; exact hops fs (by simp [h])
    by_cases h2 : schedAdmits (schedStep s op).1 rest = []
    · rcases schedStep_spec s op hop with ⟨ha, hsc, _⟩ | ⟨id, fs, ha, hle, _, hsc, _, _⟩
      · exfalso
        apply hne
        simp [schedAdmits, ha, h2]
      · simp only [runSched]
        obtain ⟨hc, _⟩ := runSched_account rest (schedStep s op).1 hrest
        rw [hc, h2, hsc]
        simp only [admitTotal, List.map_nil, List.sum_nil, Nat.cast_zero, sub_zero]
        omega
    · simp only [runSched]
      exact ih (schedStep s op).1 hrest h2

/-- Once some frame has been admitted on stream `i`, that stream's window
stays non-negative to the end of the interval. -/
lemma runSched_winOf_nonneg (ops : List SchedOp) (i : Nat) : ∀ (s : Scheduler),
    (∀ fs, SchedOp.nextStream fs ∈ ops → fs < 2 ^ 31) →
    admitOn i (schedAdmits s ops) ≠ 0 → 0 ≤ (runSched s ops).fc.winOf i := by
  induction ops with
  | nil => intro s _ h; simp [schedAdmits, admitOn] at h
  | cons op rest ih =>
    intro s hops hne
    have hop : ∀ fs, op = .nextStream fs → fs < 2 ^ 31 := by
      intro fs h; exact hops fs (by simp [h])
    have hrest : ∀ fs, SchedOp.nextStream fs ∈ rest → fs < 2 ^ 31 := by
      intro fs h; exact hops fs (by simp [h])
    by_cases h2 : admitOn i (schedAdmits (schedStep s op).1 rest) = 0
    · rcases schedStep_spec s op hop with ⟨ha, _, _⟩ | ⟨id, fs, ha, _, hle, _, hswid, _⟩
      · exfalso
        apply hne
        simp [schedAdmits, ha, h2]
      · by_cases hi : i = id
        · subst hi
          simp only [runSched]
          obtain ⟨_, hw⟩ := runSched_account rest (schedStep s op).1 hrest
          rw [hw i, h2, hswid]
          simp only [Nat.cast_zero, sub_zero]
          omega
        · exfalso
          apply hne
          have heq : schedAdmits s (op :: rest) =
              (id, fs) :: schedAdmits (schedStep s op).1 rest := by
            simp [schedAdmits, ha]
          rw [heq, admitOn_cons_ne _ _ _ _ (Ne.symm hi), h2]
    · simp only [runSched]
      exact ih (schedStep s op).1 hrest h2

/-- C5 (amended): between two WINDOW_UPDATE events (a sequence of
`queue_data`/`next_stream` calls with every frame size a valid i32), the
total bytes `next_stream` admits never exceed the connection window as of
the first admission (the windows are untouched until then, so that is the
initial connection window), the bytes admitted on any single stream never
exceed that stream's window as of the first admission, and a `next_stream`
call only admits a frame when both the connection window and the chosen
stream's window are at least `frame_size` — it returns None whenever
either window is smaller. -/
theorem scheduler_admits_bounded (s0 : Scheduler) (ops : List SchedOp)
    (hops : ∀ fs, SchedOp.nextStream fs ∈ ops → fs < 2 ^ 31) :
    (admitTotal (schedAdmits s0 ops) : Int) ≤ max s0.fc.connWindow 0 ∧
    (∀ i, (admitOn i (schedAdmits s0 ops) : Int) ≤ max (s0.fc.winOf i) 0) ∧
    (∀ (s : Scheduler) (fs id : Nat), fs < 2 ^ 31 →
       (s.nextStream fs).1 = some id →
       (fs : Int) ≤ s.fc.connWindow ∧ (fs : Int) ≤ s.fc.winOf id) := by
  refine ⟨?_, ?_, ?_⟩
  · by_cases h : schedAdmits s0 ops = []
    · simp [h, admitTotal]
    · have h1 := runSched_connWindow_nonneg ops s0 hops h
      have h2 := (runSched_account ops s0 hops).1
      rw [h2] at h1
      have : (admitTotal (schedAdmits s0 ops) : Int) ≤ s0.fc.connWindow := by omega
      exact le_trans this (le_max_left _ _)
  · intro i
    by_cases h : admitOn i (schedAdmits s0 ops) = 0
    · simp [h]
    · have h1 := runSched_winOf_nonneg ops i s0 hops h
      have h2 := (runSched_account ops s0 hops).2 i
      rw [h2] at h1
      have : (admitOn i (schedAdmits s0 ops) : Int) ≤ s0.fc.winOf i := by omega
      exact le_trans this (le_max_left _ _)
  · intro s fs id hfs hns
    cases hpop : s.ptree.popNextStream with
    | none =>
      have h0 : (s.nextStream fs).1 = none := by
        simp [Scheduler.nextStream, hpop]
      rw [h0] at hns
      cases hns
    | some id' =>
      rcases hres : s.fc.tryReserve id' (toI32 fs) with ⟨ok, fc'⟩
      cases ok with
      | false =>
        have h0 : (s.nextStream fs).1 = none := by
          simp [Scheduler.nextStream, hpop, hres]
        rw [h0] at hns
        cases hns
      | true =>
        have h0 : (s.nextStream fs).1 = some id' := by
          cases hlk : s.ptree.nodes.lookup id' <;>
            simp [Scheduler.nextStream, hpop, hres, hlk]
        rw [h0] at hns
        obtain rfl : id' = id := by injection hns
        obtain ⟨h1, h2, _, _, _⟩ := tryReserve_true s.fc fc' id' (toI32 fs) hres
        rw [toI32_of_lt fs hfs] at h1 h2
        exact ⟨h1, h2⟩

/-- C5 witness: from a fresh scheduler, queue 100 bytes on stream 1 and
admit one 50-byte frame; the admitted total is within the initial
connection window. -/
theorem scheduler_admits_bounded_witness :
    (admitTotal (schedAdmits Scheduler.new
        [SchedOp.queueData 1 100, SchedOp.nextStream 50]) : Int) ≤
      max Scheduler.new.fc.connWindow 0 :=
  (scheduler_admits_bounded Scheduler.new
    [SchedOp.queueData 1 100, SchedOp.nextStream 50]
    (by intro fs h; simp [SchedOp.nextStream.injEq] at h; omega)).1

/-- C5 counterexample.  The claim bounds the total admitted between two
WINDOW_UPDATE events by min(connection window, stream window) as of the
first admission.  After WINDOW_UPDATE raises the connection window to
65635, stream 1 (65535 queued) and stream 3 (9999 queued) are both
admitted: 65535 + 100 = 65635 bytes in total, exceeding
min(65635, 65535) = 65535, the minimum of the connection window and the
first-admitted stream's window at the time of the first admission. -/
theorem scheduler_min_bound_counterexample :
    (schedAdmits ((Scheduler.new.onWindowUpdate 0 100).queueData 1 65535
        |>.queueData 3 9999)
        [SchedOp.nextStream 65535, SchedOp.nextStream 100]) =
      [(1, 65535), (3, 100)] ∧
    ¬ ((admitTotal [(1, 65535), (3, 100)] : Int) ≤
        min (((Scheduler.new.onWindowUpdate 0 100).queueData 1 65535
          |>.queueData 3 9999).fc.connWindow)
          (((Scheduler.new.onWindowUpdate 0 100).queueData 1 65535
          |>.queueData 3 9999).fc.winOf 1)) := by
  constructor
  · decide
  · decide

end SWS
